import Mathlib

/-!
Verification development for the WhatsApp chatbot core
(ingestion, deduplication, debounce-coalescing, contact policy,
conversation state).

The Python sources are shallowly embedded as executable Lean
definitions.  Wall-clock times are passed explicitly (`now`);
machine floats that only carry timestamps are modelled as `Int`
(seconds); ISO timestamp strings are kept as `String`.
-/

namespace WaBot

/-! ## Deduplication filter (`app/utils/whatsapp_utils.py`)

`_SEEN_MESSAGE_IDS` is an `OrderedDict[str, float]` mapping a message id
to its last-seen time; the list below keeps the same insertion order
(oldest first), with unique keys.  `_is_duplicate_message_id` is embedded
as `dedupCheck`, returning the boolean result and the new state. -/

def SEEN_MESSAGE_TTL_SECONDS : Int := 300

def MAX_SEEN_MESSAGE_IDS : Nat := 2000

/-- The lazy eviction loop at the head of `_is_duplicate_message_id`:
pop from the oldest end while the oldest entry's timestamp is strictly
below the cutoff, stopping at the first entry with `ts >= cutoff`. -/
def evictOld (cutoff : Int) : List (String × Int) → List (String × Int)
  | [] => []
  | (i, ts) :: rest =>
      if ts ≥ cutoff then (i, ts) :: rest else evictOld cutoff rest

/-- `_is_duplicate_message_id(message_id)` acting on the ordered map state.
`now` is `time.time()`.  Returns `(result, new_state)`. -/
def dedupCheck (now : Int) (messageId : String) (s : List (String × Int)) :
    Bool × List (String × Int) :=
  if messageId = "" then (false, s)
  else
    let cutoff := now - SEEN_MESSAGE_TTL_SECONDS
    let s1 := evictOld cutoff s
    if s1.any (fun p => p.1 = messageId) then
      -- `move_to_end` + refresh timestamp to `now`
      (true, (s1.filter (fun p => p.1 ≠ messageId)) ++ [(messageId, now)])
    else
      let s2 := s1 ++ [(messageId, now)]
      if s2.length > MAX_SEEN_MESSAGE_IDS then (false, s2.drop 1)
      else (false, s2)

/-! ## Lemmas about the dedup filter -/

theorem evictOld_eq_dropWhile (cutoff : Int) (s : List (String × Int)) :
    evictOld cutoff s = s.dropWhile (fun p => decide (p.2 < cutoff)) := by
  induction s with
  | nil => rfl
  | cons hd tl ih =>
      obtain ⟨i, ts⟩ := hd
      by_cases h : ts ≥ cutoff
      · simp [evictOld, h, List.dropWhile, not_lt.mpr h]
      · have hd : decide (ts < cutoff) = true := by simpa using lt_of_not_ge h
        simp [evictOld, if_neg h, ih, List.dropWhile, hd]

theorem evictOld_sublist (cutoff : Int) (s : List (String × Int)) :
    (evictOld cutoff s).Sublist s := by
  rw [evictOld_eq_dropWhile]
  exact List.dropWhile_sublist _

theorem evictOld_length_le (cutoff : Int) (s : List (String × Int)) :
    (evictOld cutoff s).length ≤ s.length :=
  (evictOld_sublist cutoff s).length_le

theorem filter_ne_length_lt (key : String) (l : List (String × Int))
    (h : l.any (fun p => p.1 = key) = true) :
    (l.filter (fun p => p.1 ≠ key)).length < l.length := by
  induction l with
  | nil => simp at h
  | cons hd tl ih =>
      by_cases hp : hd.1 = key
      · have hcons : (hd :: tl).filter (fun p => p.1 ≠ key)
            = tl.filter (fun p => p.1 ≠ key) := by
          simp [List.filter, hp]
        rw [hcons]
        exact Nat.lt_succ_of_le (List.length_filter_le _ _)
      · simp only [List.any_cons, decide_eq_true_eq, hp, Bool.false_or,
          decide_eq_false_iff_not, false_or] at h
        have hcons : (hd :: tl).filter (fun p => p.1 ≠ key)
            = hd :: tl.filter (fun p => p.1 ≠ key) := by
          simp [List.filter, hp]
        rw [hcons, List.length_cons, List.length_cons]
        exact Nat.succ_lt_succ (ih h)

theorem mem_evictOld_of_fresh (cutoff : Int) (s : List (String × Int))
    (p : String × Int) (hmem : p ∈ s) (hfresh : cutoff ≤ p.2) :
    p ∈ evictOld cutoff s := by
  rw [evictOld_eq_dropWhile]
  have hsplit := List.takeWhile_append_dropWhile
    (fun q : String × Int => decide (q.2 < cutoff)) s
  rw [← hsplit] at hmem
  rcases List.mem_append.mp hmem with htake | hdrop
  · have := List.mem_takeWhile_imp htake
    simp only [decide_eq_true_eq] at this
    omega
  · exact hdrop

theorem not_any_evictOld_of_absent (cutoff : Int) (s : List (String × Int))
    (id : String) (habs : ∀ p ∈ s, p.1 ≠ id) :
    (evictOld cutoff s).any (fun p => p.1 = id) = false := by
  rw [Bool.eq_false_iff]
  intro hany
  simp only [List.any_eq_true, decide_eq_true_eq] at hany
  obtain ⟨p, hp, hpid⟩ := hany
  exact habs p ((evictOld_sublist cutoff s).mem hp) hpid

/-- C1: in-memory deduplication filter (`_is_duplicate_message_id`).
For a check of a non-empty event id on a state within the 2,000-entry cap:
(1) eviction happens from the oldest end: the state splits as a prefix of
entries strictly older than the TTL cutoff followed by the evicted-state
suffix the check then works on; (2) if the id is absent it is inserted with
the current time and the check reports "new" (`false`); (3) if the id is
present with a last-seen time within the 300s TTL, its recency is refreshed
(it becomes the newest entry, timestamped `now`) and the check reports
"duplicate" (`true`); (4) after the check the map again holds at most
2,000 entries. -/
theorem dedup_filter_spec (now : Int) (id : String) (s : List (String × Int))
    (hid : id ≠ "") (hcap : s.length ≤ MAX_SEEN_MESSAGE_IDS) :
    ((s.takeWhile fun p => decide (p.2 < now - SEEN_MESSAGE_TTL_SECONDS))
        ++ evictOld (now - SEEN_MESSAGE_TTL_SECONDS) s = s
      ∧ ∀ p ∈ s.takeWhile fun p => decide (p.2 < now - SEEN_MESSAGE_TTL_SECONDS),
          p.2 < now - SEEN_MESSAGE_TTL_SECONDS)
    ∧ ((∀ p ∈ s, p.1 ≠ id) →
        (dedupCheck now id s).1 = false
          ∧ (dedupCheck now id s).2.getLast? = some (id, now))
    ∧ (∀ ts : Int, (id, ts) ∈ s → now - SEEN_MESSAGE_TTL_SECONDS ≤ ts →
        (dedupCheck now id s).1 = true
          ∧ (dedupCheck now id s).2.getLast? = some (id, now))
    ∧ (dedupCheck now id s).2.length ≤ MAX_SEEN_MESSAGE_IDS := by
  set cutoff := now - SEEN_MESSAGE_TTL_SECONDS with hcut
  refine ⟨⟨?_, ?_⟩, ?_, ?_, ?_⟩
  · rw [evictOld_eq_dropWhile]
    exact List.takeWhile_append_dropWhile _ _
  · intro p hp
    have := List.mem_takeWhile_imp hp
    simpa using this
  · intro habs
    have hany := not_any_evictOld_of_absent cutoff s id habs
    simp only [dedupCheck, if_neg hid, ← hcut, hany]
    simp only [Bool.false_eq_true, if_false]
    split
    · rename_i hlen
      refine ⟨rfl, ?_⟩
      cases hev : evictOld cutoff s with
      | nil =>
          rw [hev] at hlen
          simp [MAX_SEEN_MESSAGE_IDS] at hlen
      | cons hd tl =>
          simp [List.getLast?_concat]
    · exact ⟨rfl, by simp [List.getLast?_concat]⟩
  · intro ts hmem hts
    have hin : ((id, ts) : String × Int) ∈ evictOld cutoff s :=
      mem_evictOld_of_fresh cutoff s (id, ts) hmem hts
    have hany : (evictOld cutoff s).any (fun p => p.1 = id) = true := by
      simp only [List.any_eq_true, decide_eq_true_eq]
      exact ⟨(id, ts), hin, rfl⟩
    simp [dedupCheck, if_neg hid, ← hcut, hany, List.getLast?_concat]
  · have hev_le : (evictOld cutoff s).length ≤ s.length := evictOld_length_le cutoff s
    simp only [MAX_SEEN_MESSAGE_IDS] at hcap ⊢
    simp only [dedupCheck, if_neg hid, ← hcut]
    by_cases hany : (evictOld cutoff s).any (fun p => p.1 = id) = true
    · simp only [hany, if_true]
      have hlt := filter_ne_length_lt id (evictOld cutoff s) hany
      simp only [List.length_append, List.length_cons, List.length_nil]
      omega
    · rw [Bool.not_eq_true] at hany
      simp only [hany, Bool.false_eq_true, if_false]
      split
      · rename_i hlen
        simp only [MAX_SEEN_MESSAGE_IDS, List.length_append, List.length_cons,
          List.length_nil] at hlen
        simp only [List.length_drop, List.length_append, List.length_cons,
          List.length_nil]
        omega
      · rename_i hlen
        simp only [MAX_SEEN_MESSAGE_IDS, List.length_append, List.length_cons,
          List.length_nil] at hlen
        simp only [List.length_append, List.length_cons, List.length_nil]
        omega

/-- Concrete witness for `dedup_filter_spec`: a fresh id checked against a
two-entry state (one stale entry at t=600, one fresh at t=900) at `now=1000`. -/
theorem dedup_filter_spec_witness :
    ("m1" ≠ ("" : String) ∧
      ([(("a" : String), (600 : Int)), ("b", 900)]).length ≤ MAX_SEEN_MESSAGE_IDS) ∧
    ((∀ p ∈ [(("a" : String), (600 : Int)), ("b", 900)], p.1 ≠ "m1") →
      (dedupCheck 1000 "m1" [("a", 600), ("b", 900)]).1 = false
        ∧ (dedupCheck 1000 "m1" [("a", 600), ("b", 900)]).2.getLast?
            = some ("m1", 1000)) := by
  refine ⟨⟨by decide, by decide⟩, ?_⟩
  exact (dedup_filter_spec 1000 "m1" [("a", 600), ("b", 900)]
    (by decide) (by decide)).2.1

/-! ## Identity normalizer (`app/services/contact_store.py`)

`_split_contact_id` / `_sanitize_contact_base` / `normalize_phone`.
Python `str.strip()` / `str.lower()` / `"@" in v` / `v.split("@", 1)` are
embedded over the character list of the string (ASCII behaviour, which is
all these identifiers use). -/

/-- Python `str.strip()`: drop leading and trailing whitespace. -/
def pyStrip (s : String) : String :=
  ⟨(s.data.dropWhile Char.isWhitespace).rdropWhile Char.isWhitespace⟩

/-- Python `str.lower()` (ASCII). -/
def pyLower (s : String) : String :=
  ⟨s.data.map Char.toLower⟩

/-- Python `value.lower().startswith("lid:")`. -/
def hasLidColonStart (value : String) : Bool :=
  decide ((pyLower value).data.take 4 = ['l', 'i', 'd', ':'])

/-- The part of `value.split("@", 1)` before the first `'@'`. -/
def beforeAt (l : List Char) : List Char :=
  l.takeWhile (fun c => c ≠ '@')

/-- The part of `value.split("@", 1)` after the first `'@'`
(`none` when `"@" not in value`). -/
def afterAt : List Char → Option (List Char)
  | [] => none
  | c :: rest => if c = '@' then some rest else afterAt rest

/-- `_split_contact_id(raw) -> (base, suffix)`. -/
def splitContactId (raw : String) : String × String :=
  let value := pyStrip raw
  if value.data = [] then ("", "")
  else if hasLidColonStart value then (⟨value.data.drop 4⟩, "lid")
  else
    match afterAt value.data with
    | some suffix => (⟨beforeAt value.data⟩, pyLower ⟨suffix⟩)
    | none => (value, "")

/-- `_sanitize_contact_base`: `re.sub(r"[^A-Za-z0-9]", "", value)`. -/
def sanitizeContactBase (value : String) : String :=
  ⟨value.data.filter (fun c => c.isAlpha || c.isDigit)⟩

/-- `normalize_phone(raw)`.  (The Python body ends with
`if re.search("[A-Za-z]", cleaned): return cleaned` followed by
`return cleaned` — both branches return `cleaned`, so they are collapsed
here.) -/
def normalize_phone (raw : String) : String :=
  let bs := splitContactId raw
  if bs.1.data = [] then ""
  else if bs.1.data.contains '-' then ""
  else
    let cleaned := sanitizeContactBase bs.1
    if cleaned.data = [] then ""
    else if bs.2 = "lid" then "lid:" ++ cleaned
    else cleaned

/-! ### Lemmas about the identity normalizer -/

theorem rdropWhile_append_rtakeWhile {α : Type} (p : α → Bool) (l : List α) :
    l.rdropWhile p ++ l.rtakeWhile p = l := by
  rw [List.rdropWhile, List.rtakeWhile, ← List.reverse_append,
    List.takeWhile_append_dropWhile, List.reverse_reverse]

theorem ws_not_alnum (c : Char) (h : c.isWhitespace = true) :
    (c.isAlpha || c.isDigit) = false := by
  simp only [Char.isWhitespace, Bool.or_eq_true, decide_eq_true_eq] at h
  rcases h with ((h | h) | h) | h <;> subst h <;> decide

theorem hyphen_not_ws : Char.isWhitespace '-' = false := by decide

theorem dropWhile_eq_self_of_head_false {α : Type} (p : α → Bool) (c : α)
    (l : List α) (hc : p c = false) : (c :: l).dropWhile p = c :: l := by
  simp [List.dropWhile, hc]

theorem head_false_of_dropWhile_cons {α : Type} (p : α → Bool) (c : α)
    (x l : List α) (h : l.dropWhile p = c :: x) : p c = false := by
  induction l with
  | nil => simp [List.dropWhile] at h
  | cons a l' ih =>
      by_cases ha : p a
      · rw [List.dropWhile_cons_of_pos ha] at h
        exact ih h
      · rw [List.dropWhile_cons_of_neg ha] at h
        obtain ⟨rfl, -⟩ := List.cons.inj h
        exact Bool.eq_false_iff.mpr ha

/-- If a list has no leading `p`-elements, neither does any of its
initial segments. -/
theorem dropWhile_eq_self_append {α : Type} (p : α → Bool) (b t : List α)
    (h : (b ++ t).dropWhile p = b ++ t) : b.dropWhile p = b := by
  cases b with
  | nil => rfl
  | cons c b' =>
      have hc : p c = false :=
        head_false_of_dropWhile_cons p c (b' ++ t) (c :: b' ++ t) (by simpa using h)
      exact dropWhile_eq_self_of_head_false p c b' hc

theorem pyStrip_data_no_lead_ws (s : String) :
    (pyStrip s).data.dropWhile Char.isWhitespace = (pyStrip s).data := by
  show ((s.data.dropWhile Char.isWhitespace).rdropWhile Char.isWhitespace).dropWhile
      Char.isWhitespace = _
  have hsplit := rdropWhile_append_rtakeWhile Char.isWhitespace
    (s.data.dropWhile Char.isWhitespace)
  have hself : ((s.data.dropWhile Char.isWhitespace).rdropWhile Char.isWhitespace
      ++ (s.data.dropWhile Char.isWhitespace).rtakeWhile Char.isWhitespace).dropWhile
      Char.isWhitespace
      = (s.data.dropWhile Char.isWhitespace).rdropWhile Char.isWhitespace
        ++ (s.data.dropWhile Char.isWhitespace).rtakeWhile Char.isWhitespace := by
    rw [hsplit]
    exact List.dropWhile_idempotent _ _
  exact dropWhile_eq_self_append _ _ _ hself

theorem at_not_mem_beforeAt (l : List Char) : '@' ∉ beforeAt l := by
  intro hmem
  have := List.mem_takeWhile_imp hmem
  simp at this

theorem beforeAt_append (l : List Char) :
    beforeAt l ++ l.dropWhile (fun c => c ≠ '@') = l :=
  List.takeWhile_append_dropWhile _ _

theorem afterAt_eq_none_iff (l : List Char) : afterAt l = none ↔ '@' ∉ l := by
  induction l with
  | nil => simp [afterAt]
  | cons c rest ih =>
      by_cases hc : c = '@'
      · subst hc
        simp [afterAt]
      · simp only [afterAt, if_neg hc, ih, List.mem_cons]
        constructor
        · intro h hmem
          rcases hmem with h' | h'
          · exact hc h'.symm
          · exact h h'
        · intro h hmem
          exact h (Or.inr hmem)

theorem afterAt_some_decomp (l suffix : List Char) (h : afterAt l = some suffix) :
    l = beforeAt l ++ '@' :: suffix := by
  induction l with
  | nil => simp [afterAt] at h
  | cons c rest ih =>
      by_cases hc : c = '@'
      · subst hc
        simp only [afterAt, if_pos rfl, Option.some.injEq, if_true] at h
        rw [← h]
        simp [beforeAt, List.takeWhile]
      · simp only [afterAt, if_neg hc] at h
        have hdec := ih h
        have hbefore : beforeAt (c :: rest) = c :: beforeAt rest := by
          simp [beforeAt, List.takeWhile, hc]
        rw [hbefore, List.cons_append, ← hdec]

theorem rdropWhile_filter_alnum (b : List Char) :
    (b.rdropWhile Char.isWhitespace).filter (fun c => c.isAlpha || c.isDigit)
      = b.filter (fun c => c.isAlpha || c.isDigit) := by
  conv_rhs => rw [← rdropWhile_append_rtakeWhile Char.isWhitespace b]
  rw [List.filter_append]
  have : (b.rtakeWhile Char.isWhitespace).filter (fun c => c.isAlpha || c.isDigit)
      = [] := by
    rw [List.filter_eq_nil_iff]
    intro c hc
    have hws := List.mem_rtakeWhile_imp hc
    simp [ws_not_alnum c hws]
  rw [this, List.append_nil]

theorem rdropWhile_contains_hyphen (b : List Char) :
    (b.rdropWhile Char.isWhitespace).contains '-' = b.contains '-' := by
  have hiff : '-' ∈ b.rdropWhile Char.isWhitespace ↔ '-' ∈ b := by
    constructor
    · intro hm
      rw [← rdropWhile_append_rtakeWhile Char.isWhitespace b]
      exact List.mem_append.mpr (Or.inl hm)
    · intro hm
      rw [← rdropWhile_append_rtakeWhile Char.isWhitespace b] at hm
      rcases List.mem_append.mp hm with h' | h'
      · exact h'
      · exact absurd (List.mem_rtakeWhile_imp h') (by decide)
  by_cases h : '-' ∈ b
  · have h2 := hiff.mpr h
    simp [h, h2]
  · have h2 : '-' ∉ b.rdropWhile Char.isWhitespace := fun hm => h (hiff.mp hm)
    simp [h, h2]

theorem hasLidColonStart_of_decomp (b' t : List Char)
    (h : hasLidColonStart ⟨b'⟩ = true) : hasLidColonStart ⟨b' ++ t⟩ = true := by
  simp only [hasLidColonStart, pyLower, decide_eq_true_eq] at h ⊢
  have hlen : 4 ≤ b'.length := by
    have := congrArg List.length h
    simp only [List.length_take, List.length_map] at this
    simp only [List.length_cons, List.length_nil] at this
    omega
  rw [← List.map_take] at h ⊢
  rw [List.take_append_of_le_length hlen]
  exact h

theorem pyStrip_data_rdrop (s : String) :
    (pyStrip s).data.rdropWhile Char.isWhitespace = (pyStrip s).data := by
  show ((s.data.dropWhile Char.isWhitespace).rdropWhile
      Char.isWhitespace).rdropWhile Char.isWhitespace = _
  exact List.rdropWhile_idempotent _ _

theorem pyStrip_pyStrip (s : String) : pyStrip (pyStrip s) = pyStrip s := by
  show (⟨((pyStrip s).data.dropWhile Char.isWhitespace).rdropWhile
      Char.isWhitespace⟩ : String) = pyStrip s
  rw [pyStrip_data_no_lead_ws, pyStrip_data_rdrop]

/-- For inputs that do not resolve to the `lid` alias namespace (neither a
`lid:` prefix nor an `@lid` domain), the normalizer only looks at the part
of the (stripped) identifier before the first `'@'`. -/
theorem normalize_phone_strips_at (raw : String)
    (hsfx : (splitContactId raw).2 ≠ "lid") :
    normalize_phone raw = normalize_phone ⟨beforeAt (pyStrip raw).data⟩ := by
  by_cases hl : (pyStrip raw).data = []
  · have hsplit : splitContactId raw = ("", "") := by
      simp [splitContactId, hl]
    rw [hl]
    simp [normalize_phone, hsplit]
    rfl
  · have hnl : hasLidColonStart (pyStrip raw) = false := by
      by_contra hcon
      rw [Bool.not_eq_false] at hcon
      have : splitContactId raw = (⟨(pyStrip raw).data.drop 4⟩, "lid") := by
        simp [splitContactId, hl, hcon]
      exact hsfx (by rw [this])
    cases haft : afterAt (pyStrip raw).data with
    | none =>
        have hnoat : '@' ∉ (pyStrip raw).data := (afterAt_eq_none_iff _).mp haft
        have hdw : (pyStrip raw).data.dropWhile (fun c => ¬ (c = '@')) = [] := by
          rw [List.dropWhile_eq_nil_iff]
          intro x hx
          simp only [decide_not, Bool.not_eq_true', decide_eq_false_iff_not]
          intro hxe
          exact hnoat (hxe ▸ hx)
        have hba : beforeAt (pyStrip raw).data = (pyStrip raw).data := by
          have hap := beforeAt_append (pyStrip raw).data
          rw [show ((pyStrip raw).data.dropWhile fun c => ¬ (c = '@')) = []
            from hdw, List.append_nil] at hap
          exact hap
        rw [hba]
        have hveq : (⟨(pyStrip raw).data⟩ : String) = pyStrip raw := rfl
        rw [hveq]
        have h1 : splitContactId raw = (pyStrip raw, "") := by
          simp [splitContactId, hl, hnl, haft]
        have hv : pyStrip (pyStrip raw) = pyStrip raw := pyStrip_pyStrip raw
        have h2 : splitContactId (pyStrip raw) = (pyStrip raw, "") := by
          simp [splitContactId, hv, hl, hnl, haft]
        rw [normalize_phone, normalize_phone, h1, h2]
    | some suffix =>
        have h1 : splitContactId raw
            = (⟨beforeAt (pyStrip raw).data⟩, pyLower ⟨suffix⟩) := by
          simp [splitContactId, hl, hnl, haft]
        have hsfx' : pyLower ⟨suffix⟩ ≠ "lid" := by
          rw [h1] at hsfx
          exact hsfx
        have hlead := pyStrip_data_no_lead_ws raw
        have hblead : (beforeAt (pyStrip raw).data).dropWhile Char.isWhitespace
            = beforeAt (pyStrip raw).data := by
          apply dropWhile_eq_self_append Char.isWhitespace _
            ((pyStrip raw).data.dropWhile (fun c => ¬ (c = '@')))
          rw [show beforeAt (pyStrip raw).data
              ++ ((pyStrip raw).data.dropWhile fun c => ¬ (c = '@'))
            = (pyStrip raw).data from beforeAt_append _]
          exact hlead
        have hstripb : pyStrip ⟨beforeAt (pyStrip raw).data⟩
            = ⟨(beforeAt (pyStrip raw).data).rdropWhile Char.isWhitespace⟩ := by
          show (⟨((beforeAt (pyStrip raw).data).dropWhile
              Char.isWhitespace).rdropWhile Char.isWhitespace⟩ : String) = _
          rw [hblead]
        by_cases hb'nil :
            (beforeAt (pyStrip raw).data).rdropWhile Char.isWhitespace = []
        · have hallws : ∀ x ∈ beforeAt (pyStrip raw).data, Char.isWhitespace x :=
            List.rdropWhile_eq_nil_iff.mp hb'nil
          have h2 : splitContactId ⟨beforeAt (pyStrip raw).data⟩ = ("", "") := by
            simp [splitContactId, hstripb, hb'nil]
          by_cases hbnil : beforeAt (pyStrip raw).data = []
          · rw [normalize_phone, normalize_phone, h1, h2]
            simp [hbnil]
          · have hsanb : (beforeAt (pyStrip raw).data).filter
                (fun c => c.isAlpha || c.isDigit) = [] := by
              rw [List.filter_eq_nil_iff]
              intro c hc
              simp [ws_not_alnum c (hallws c hc)]
            have hnodash : (beforeAt (pyStrip raw).data).contains '-' = false := by
              by_cases hd : '-' ∈ beforeAt (pyStrip raw).data
              · exact absurd (hallws _ hd) (by decide)
              · simp [hd]
            rw [normalize_phone, normalize_phone, h1, h2]
            simp [hbnil, hnodash, sanitizeContactBase, hsanb]
        · have hbnil : beforeAt (pyStrip raw).data ≠ [] := by
            intro h
            apply hb'nil
            rw [h]
            simp [List.rdropWhile]
          have hlidb' : hasLidColonStart
              ⟨(beforeAt (pyStrip raw).data).rdropWhile Char.isWhitespace⟩
              = false := by
            by_contra hcon
            rw [Bool.not_eq_false] at hcon
            have h3 := hasLidColonStart_of_decomp _
              ((beforeAt (pyStrip raw).data).rtakeWhile Char.isWhitespace) hcon
            rw [show (beforeAt (pyStrip raw).data).rdropWhile Char.isWhitespace
                ++ (beforeAt (pyStrip raw).data).rtakeWhile Char.isWhitespace
              = beforeAt (pyStrip raw).data
              from rdropWhile_append_rtakeWhile _ _] at h3
            have h4 := hasLidColonStart_of_decomp _
              ((pyStrip raw).data.dropWhile (fun c => ¬ (c = '@'))) h3
            rw [show beforeAt (pyStrip raw).data
                ++ ((pyStrip raw).data.dropWhile fun c => ¬ (c = '@'))
              = (pyStrip raw).data from beforeAt_append _] at h4
            have h5 : hasLidColonStart (pyStrip raw) = true := h4
            exact Bool.false_ne_true (hnl.symm.trans h5)
          have hnoatb : '@' ∉ beforeAt (pyStrip raw).data :=
            at_not_mem_beforeAt _
          have hnoatb' : '@' ∉ (beforeAt (pyStrip raw).data).rdropWhile
              Char.isWhitespace := by
            intro hm
            apply hnoatb
            rw [← rdropWhile_append_rtakeWhile Char.isWhitespace
              (beforeAt (pyStrip raw).data)]
            exact List.mem_append.mpr (Or.inl hm)
          have haftb' : afterAt ((beforeAt (pyStrip raw).data).rdropWhile
              Char.isWhitespace) = none :=
            (afterAt_eq_none_iff _).mpr hnoatb'
          have h2 : splitContactId ⟨beforeAt (pyStrip raw).data⟩
              = (⟨(beforeAt (pyStrip raw).data).rdropWhile Char.isWhitespace⟩,
                  "") := by
            simp [splitContactId, hstripb, hb'nil, hlidb', haftb']
          have hsan := rdropWhile_filter_alnum (beforeAt (pyStrip raw).data)
          have hdash := rdropWhile_contains_hyphen (beforeAt (pyStrip raw).data)
          rw [normalize_phone, normalize_phone, h1, h2]
          simp only [sanitizeContactBase, hsan, hdash, hbnil, hb'nil,
            if_neg hbnil, if_neg hb'nil]
          simp [hsfx']

theorem string_ext {s t : String} (h : s.data = t.data) : s = t := by
  cases s
  cases t
  simp only at h
  rw [h]

/-- Every output of the normalizer is empty, an all-alphanumeric key, or an
`lid:`-namespaced key with an all-alphanumeric remainder (the latter exactly
when the split suffix is `"lid"`). -/
theorem normalize_phone_shape (raw : String) :
    normalize_phone raw = "" ∨
    ∃ f : List Char, (∀ c ∈ f, (c.isAlpha || c.isDigit) = true) ∧
      (((splitContactId raw).2 = "lid"
          ∧ normalize_phone raw = ⟨'l' :: 'i' :: 'd' :: ':' :: f⟩)
        ∨ ((splitContactId raw).2 ≠ "lid" ∧ normalize_phone raw = ⟨f⟩)) := by
  simp only [normalize_phone]
  by_cases h0 : (splitContactId raw).1.data = []
  · left
    rw [if_pos h0]
  rw [if_neg h0]
  by_cases h1 : (splitContactId raw).1.data.contains '-' = true
  · left
    rw [if_pos h1]
  rw [if_neg h1]
  by_cases h2 : (sanitizeContactBase (splitContactId raw).1).data = []
  · left
    rw [if_pos h2]
  rw [if_neg h2]
  right
  refine ⟨(splitContactId raw).1.data.filter (fun c => c.isAlpha || c.isDigit),
    fun c hc => (List.mem_filter.mp hc).2, ?_⟩
  by_cases h3 : (splitContactId raw).2 = "lid"
  · left
    refine ⟨h3, ?_⟩
    rw [if_pos h3]
    apply string_ext
    rw [String.data_append]
    rfl
  · right
    refine ⟨h3, ?_⟩
    rw [if_neg h3]
    rfl

/-- C4 counterexample: the claim says that for **every** input any suffix
after `'@'` is stripped, but inputs in the `lid` alias namespace keep the
alphanumeric characters of their `'@'`-suffix: `"lid:1@c.us"` normalizes to
`"lid:1cus"`, not to `normalize_phone "lid:1" = "lid:1"`; likewise
`"123@lid"` normalizes to `"lid:123"`, not to `normalize_phone "123" = "123"`. -/
theorem normalize_phone_at_stripping_cex :
    normalize_phone "lid:1@c.us" = "lid:1cus"
      ∧ normalize_phone "lid:1" = "lid:1"
      ∧ normalize_phone "lid:1@c.us" ≠ normalize_phone "lid:1"
      ∧ normalize_phone "123@lid" = "lid:123"
      ∧ normalize_phone "123" = "123"
      ∧ normalize_phone "123@lid" ≠ normalize_phone "123" := by
  exact ⟨rfl, rfl, by decide, rfl, rfl, by decide⟩

/-- C4 (amended): the identity normalizer is a pure total function such that
(1) every identifier whose base contains a hyphen yields the empty string;
(2) for inputs outside the `lid` alias namespace, the suffix after `'@'` is
stripped (the result only depends on the part before the first `'@'`);
(3) only alphanumeric characters of the base are retained (up to the
distinguishing `lid:` namespace marker); and (4) a key from the alias
namespace never collides with a key normalized from a non-alias identifier. -/
theorem normalize_phone_spec (raw r2 : String) :
    ((splitContactId raw).1.data.contains '-' = true → normalize_phone raw = "")
    ∧ ((splitContactId raw).2 ≠ "lid" →
        normalize_phone raw = normalize_phone ⟨beforeAt (pyStrip raw).data⟩)
    ∧ (normalize_phone raw = ""
        ∨ (∀ c ∈ (normalize_phone raw).data, (c.isAlpha || c.isDigit) = true)
        ∨ ((normalize_phone raw).data.take 4 = ['l', 'i', 'd', ':']
            ∧ ∀ c ∈ (normalize_phone raw).data.drop 4,
                (c.isAlpha || c.isDigit) = true))
    ∧ ((splitContactId raw).2 = "lid" → (splitContactId r2).2 ≠ "lid" →
        normalize_phone raw ≠ "" → normalize_phone raw ≠ normalize_phone r2) := by
  refine ⟨?_, normalize_phone_strips_at raw, ?_, ?_⟩
  · intro h
    simp only [normalize_phone]
    by_cases h0 : (splitContactId raw).1.data = []
    · rw [if_pos h0]
    · rw [if_neg h0, if_pos h]
  · rcases normalize_phone_shape raw with hz | ⟨f, halnum, hcase⟩
    · exact Or.inl hz
    rcases hcase with ⟨-, heq⟩ | ⟨-, heq⟩
    · right
      right
      rw [heq]
      exact ⟨rfl, fun c hc => halnum c hc⟩
    · right
      left
      rw [heq]
      exact halnum
  · intro hlid hnlid hne heq
    rcases normalize_phone_shape raw with hz | ⟨f, _, hcase⟩
    · exact hne hz
    rcases hcase with ⟨-, heq1⟩ | ⟨hnl, -⟩
    · rcases normalize_phone_shape r2 with hz2 | ⟨f2, halnum2, hcase2⟩
      · rw [hz2] at heq
        exact hne heq
      rcases hcase2 with ⟨hl2, -⟩ | ⟨-, heq2⟩
      · exact hnlid hl2
      · rw [heq1, heq2] at heq
        have hdata := congrArg String.data heq
        simp only at hdata
        have hmem : ':' ∈ f2 := by
          rw [← hdata]
          simp
        have := halnum2 ':' hmem
        simp at this
    · exact hnl hlid

/-- Concrete witness for `normalize_phone_spec`: a hyphenated group id, a
plain `@c.us` number, and an alias/phone non-collision. -/
theorem normalize_phone_spec_witness :
    ((splitContactId "62-811").1.data.contains '-' = true
      ∧ normalize_phone "62-811" = "")
    ∧ ((splitContactId "62811@c.us").2 ≠ "lid"
      ∧ normalize_phone "62811@c.us"
          = normalize_phone ⟨beforeAt (pyStrip "62811@c.us").data⟩)
    ∧ ((splitContactId "lid:99").2 = "lid" ∧ (splitContactId "62811").2 ≠ "lid"
      ∧ normalize_phone "lid:99" ≠ ""
      ∧ normalize_phone "lid:99" ≠ normalize_phone "62811") :=
  ⟨⟨by decide, (normalize_phone_spec "62-811" "x").1 (by decide)⟩,
   ⟨by decide, (normalize_phone_spec "62811@c.us" "x").2.1 (by decide)⟩,
   ⟨by decide, by decide, by decide,
    (normalize_phone_spec "lid:99" "62811").2.2.2 (by decide) (by decide)
      (by decide)⟩⟩

/-! ## Contact policy store (`app/services/contact_store.py`)

The JSON file behind `_STORE_LOCK` is modelled as an ordered association
list (Python `dict` insertion order) and all operations take the wall-clock
ISO timestamp `now` (`_now_iso()`) explicitly.  A missing dict field is
represented by `""` (resp. the Python default `True` for `allow_bot`),
which is exactly how `_normalize_contact` treats falsy values. -/

def DEFAULT_UNKNOWN_CATEGORY : String := "external_unknown"

structure Contact where
  phone : String
  category : String
  allow_bot : Bool
  created_at : String
  updated_at : String
  source : String
  routing_reason : String
  routing_model : String
deriving DecidableEq

/-- The order-preserving, non-empty-key dedup loop at the end of
`_candidate_contact_keys`. -/
def dedupKeysAux (seen : List String) : List String → List String
  | [] => []
  | k :: rest =>
      if k ≠ "" ∧ k ∉ seen then k :: dedupKeysAux (k :: seen) rest
      else dedupKeysAux seen rest

/-- `_candidate_contact_keys(raw)`. -/
def candidateContactKeys (raw : String) : List String :=
  let bs := splitContactId raw
  if bs.1.data = [] then []
  else if bs.1.data.contains '-' then []
  else
    let cleaned := sanitizeContactBase bs.1
    if cleaned.data = [] then []
    else
      let lidKey := "lid:" ++ cleaned
      let keys := if bs.2 = "lid" then [lidKey, cleaned] else [cleaned, lidKey]
      dedupKeysAux [] keys

/-- `_normalize_contact(payload, key=key)` (every modelled call site passes
an explicit key, so the `raw_phone` fallback branch is dead). -/
def normalizeContact (payload : Contact) (key : String) (now : String) :
    Contact :=
  { phone := key
    category := if payload.category = "" then DEFAULT_UNKNOWN_CATEGORY
      else payload.category
    allow_bot := payload.allow_bot
    created_at := if payload.created_at = "" then now else payload.created_at
    updated_at := if payload.updated_at = "" then now else payload.updated_at
    source := if payload.source = "" then "unknown" else payload.source
    routing_reason := payload.routing_reason
    routing_model := payload.routing_model }

/-- The persisted contact store (a JSON object: ordered key/record map). -/
abbrev Store : Type := List (String × Contact)

def Store.get (s : Store) (k : String) : Option Contact :=
  (s.find? (fun p => p.1 = k)).map (fun p => p.2)

def Store.set (s : Store) (k : String) (v : Contact) : Store :=
  if s.any (fun p => p.1 = k) then
    s.map (fun p => if p.1 = k then (k, v) else p)
  else s ++ [(k, v)]

/-- The `for key in candidates: contact = store.get(key)` loops shared by
`get_contact` / `ensure_contact_record` / `upsert_contact`. -/
def lookupCandidates (store : Store) : List String → Option (String × Contact)
  | [] => none
  | k :: rest =>
      match Store.get store k with
      | some c => some (k, c)
      | none => lookupCandidates store rest

/-- `get_contact(phone)` against a given store snapshot. -/
def get_contact (store : Store) (phone : String) (now : String) :
    Option Contact :=
  match lookupCandidates store (candidateContactKeys phone) with
  | some (key, c) => some (normalizeContact c key now)
  | none => none

/-- `ensure_contact_record(phone, default_category, default_allow_bot,
source)`.  Returns `((contact, created_flag), new_store)`. -/
def ensure_contact_record (store : Store) (phone : String) (now : String)
    (default_category : String) (default_allow_bot : Bool)
    (src : String) : (Option Contact × Bool) × Store :=
  let candidates := candidateContactKeys phone
  if candidates = [] then ((none, false), store)
  else
    match lookupCandidates store candidates with
    | some (key, c) =>
        let c' := normalizeContact c key now
        ((some c', false), Store.set store key c')
    | none =>
        let normalized := normalize_phone phone
        if normalized = "" then ((none, false), store)
        else
          let c : Contact :=
            { phone := normalized, category := default_category,
              allow_bot := default_allow_bot, created_at := now,
              updated_at := now, source := src,
              routing_reason := "", routing_model := "" }
          let c' := normalizeContact c normalized now
          ((some c', true), Store.set store normalized c')

/-- `upsert_contact(phone, category=…, allow_bot=…, source=…,
routing_reason=…, routing_model=…)`; `none` models an omitted keyword
argument.  Note the Python `if source:` truthiness test (an empty string
behaves like an omitted `source`). -/
def upsert_contact (store : Store) (phone : String)
    (category : Option String) (allow_bot : Option Bool)
    (src : Option String) (routing_reason : Option String)
    (routing_model : Option String) (now : String) :
    Option Contact × Store :=
  let candidates := candidateContactKeys phone
  if candidates = [] then (none, store)
  else
    let kc : Option (String × Contact) :=
      match lookupCandidates store candidates with
      | some (key, c) => some (key, c)
      | none =>
          let normalized := normalize_phone phone
          if normalized = "" then none
          else some (normalized,
            { phone := normalized, category := "", allow_bot := true,
              created_at := "", updated_at := "", source := "",
              routing_reason := "", routing_model := "" })
    match kc with
    | none => (none, store)
    | some (key, c0) =>
        let c1 := normalizeContact c0 key now
        let c2 : Contact :=
          { c1 with
            category := match category with
              | some cat => if cat = "" then DEFAULT_UNKNOWN_CATEGORY else cat
              | none => c1.category
            allow_bot := allow_bot.getD c1.allow_bot
            source := match src with
              | some s => if s = "" then c1.source else s
              | none => c1.source
            routing_reason := routing_reason.getD c1.routing_reason
            routing_model := routing_model.getD c1.routing_model
            updated_at := now }
        (some c2, Store.set store key c2)

/-! ### Lemmas about the contact store -/

theorem lid_append_ne (s : String) : "lid:" ++ s ≠ s := by
  intro h
  have hlen := congrArg (fun t : String => t.data.length) h
  simp only [String.data_append, List.length_append, List.length_cons,
    List.length_nil] at hlen
  omega

theorem lid_append_ne_empty (s : String) : "lid:" ++ s ≠ "" := by
  intro h
  have hlen := congrArg (fun t : String => t.data.length) h
  simp only [String.data_append, List.length_append, List.length_cons,
    List.length_nil] at hlen
  omega

theorem ne_empty_of_data_ne_nil (s : String) (h : s.data ≠ []) : s ≠ "" := by
  intro he
  rw [he] at h
  exact h rfl

/-- Under a successful normalization, the candidate key list is the
two-element list pairing the plain sanitized key with its `lid:` twin
(preferred order decided by the split suffix), and the normalized key is
its head. -/
theorem candidateContactKeys_spec (phone : String)
    (h : normalize_phone phone ≠ "") :
    candidateContactKeys phone
        = (if (splitContactId phone).2 = "lid"
          then ["lid:" ++ sanitizeContactBase (splitContactId phone).1,
                sanitizeContactBase (splitContactId phone).1]
          else [sanitizeContactBase (splitContactId phone).1,
                "lid:" ++ sanitizeContactBase (splitContactId phone).1])
      ∧ normalize_phone phone
          = (if (splitContactId phone).2 = "lid"
            then "lid:" ++ sanitizeContactBase (splitContactId phone).1
            else sanitizeContactBase (splitContactId phone).1) := by
  by_cases h0 : (splitContactId phone).1.data = []
  · exfalso
    apply h
    simp only [normalize_phone]
    rw [if_pos h0]
  by_cases h1 : (splitContactId phone).1.data.contains '-' = true
  · exfalso
    apply h
    simp only [normalize_phone]
    rw [if_neg h0, if_pos h1]
  by_cases h2 : (sanitizeContactBase (splitContactId phone).1).data = []
  · exfalso
    apply h
    simp only [normalize_phone]
    rw [if_neg h0, if_neg h1, if_pos h2]
  have hclean_ne : sanitizeContactBase (splitContactId phone).1 ≠ "" :=
    ne_empty_of_data_ne_nil _ h2
  have hlid_ne : ("lid:" ++ sanitizeContactBase (splitContactId phone).1)
      ≠ sanitizeContactBase (splitContactId phone).1 := lid_append_ne _
  constructor
  · simp only [candidateContactKeys]
    rw [if_neg h0, if_neg h1, if_neg h2]
    by_cases h3 : (splitContactId phone).2 = "lid"
    · rw [if_pos h3]
      simp [dedupKeysAux, hclean_ne, lid_append_ne_empty, hlid_ne.symm]
    · rw [if_neg h3]
      simp [dedupKeysAux, hclean_ne, lid_append_ne_empty, hlid_ne]
  · simp only [normalize_phone]
    rw [if_neg h0, if_neg h1, if_neg h2]

theorem lookupCandidates_eq_none (store : Store) (ks : List String)
    (h : ∀ k ∈ ks, Store.get store k = none) :
    lookupCandidates store ks = none := by
  induction ks with
  | nil => rfl
  | cons k rest ih =>
      have hk := h k (List.mem_cons_self k rest)
      simp only [lookupCandidates, hk]
      exact ih (fun k' hk' => h k' (List.mem_cons_of_mem k hk'))

theorem find?_append_none {α : Type} (p : α → Bool) (l1 l2 : List α)
    (h : l1.find? p = none) : (l1 ++ l2).find? p = l2.find? p := by
  induction l1 with
  | nil => rfl
  | cons hd tl ih =>
      rw [List.find?_cons] at h
      rcases hp : p hd with _ | _
      · rw [List.cons_append, List.find?_cons, hp]
        apply ih
        rwa [hp] at h
      · rw [hp] at h
        simp at h

theorem store_get_append_single (store : Store) (n : String) (c : Contact)
    (k : String) (hstore : Store.get store k = none) :
    Store.get (store ++ [(n, c)]) k = if n = k then some c else none := by
  simp only [Store.get, Option.map_eq_none'] at hstore
  simp only [Store.get, find?_append_none _ store _ hstore, List.find?_cons,
    List.find?_nil]
  by_cases hk : n = k
  · simp [hk]
  · simp [hk]

theorem store_entries_key_ne (store : Store) (k : String)
    (h : Store.get store k = none) : ∀ p ∈ store, p.1 ≠ k := by
  intro p hp
  simp only [Store.get, Option.map_eq_none', List.find?_eq_none] at h
  have := h p hp
  simpa using this

theorem map_keep_of_ne (n : String) (c : Contact)
    (l : List (String × Contact)) (h : ∀ p ∈ l, p.1 ≠ n) :
    l.map (fun p => if p.1 = n then (n, c) else p) = l := by
  induction l with
  | nil => rfl
  | cons hd tl ih =>
      have hne := h hd (List.mem_cons_self hd tl)
      simp only [List.map_cons, if_neg hne]
      rw [ih (fun p hp => h p (List.mem_cons_of_mem hd hp))]

theorem store_set_append_self (store : Store) (n : String) (c : Contact)
    (hfresh : Store.get store n = none) :
    Store.set (store ++ [(n, c)]) n c = store ++ [(n, c)] := by
  have hany : (store ++ [(n, c)]).any (fun p => p.1 = n) = true := by
    rw [List.any_append]
    simp
  simp only [Store.set, hany, if_true, List.map_append,
    map_keep_of_ne n c store (store_entries_key_ne store n hfresh)]
  simp

theorem store_set_fresh (store : Store) (n : String) (c : Contact)
    (hfresh : Store.get store n = none) :
    Store.set store n c = store ++ [(n, c)] := by
  have hany : store.any (fun p => p.1 = n) = false := by
    rw [Bool.eq_false_iff]
    intro h
    simp only [List.any_eq_true, decide_eq_true_eq] at h
    obtain ⟨p, hp, hpk⟩ := h
    exact store_entries_key_ne store n hfresh p hp hpk
  simp [Store.set, hany]

theorem normalizeContact_fixed (c : Contact) (hcat : ¬ (c.category = ""))
    (hcre : ¬ (c.created_at = "")) (hupd : ¬ (c.updated_at = ""))
    (hsrc : ¬ (c.source = "")) (now : String) :
    normalizeContact c c.phone now = c := by
  simp only [normalizeContact, if_neg hcat, if_neg hcre, if_neg hupd,
    if_neg hsrc]

/-- C7: `ensure_contact_record` is idempotent.  For a fresh identity (no
candidate key present in the store), the first call creates the default
record `c` (category `external_unknown`, `allow_bot = true`, source
`"auto"`) and reports `created = true`; a second call for the same identity
reports `created = false`, returns exactly the record the first call
produced, and leaves the store unchanged; afterwards exactly one record
exists for that identity. -/
theorem ensure_contact_record_idempotent (store : Store) (phone t1 t2 : String)
    (hfresh : ∀ k ∈ candidateContactKeys phone, Store.get store k = none)
    (hnorm : normalize_phone phone ≠ "") (ht1 : ¬ (t1 = "")) :
    ∃ c : Contact,
      c.category = DEFAULT_UNKNOWN_CATEGORY ∧ c.allow_bot = true
      ∧ c.source = "auto"
      ∧ (ensure_contact_record store phone t1 DEFAULT_UNKNOWN_CATEGORY true
            "auto"
          = ((some c, true), store ++ [(normalize_phone phone, c)]))
      ∧ (ensure_contact_record (store ++ [(normalize_phone phone, c)]) phone t2
            DEFAULT_UNKNOWN_CATEGORY true "auto"
          = ((some c, false), store ++ [(normalize_phone phone, c)]))
      ∧ ((store ++ [(normalize_phone phone, c)]).filter
          (fun p => p.1 ∈ candidateContactKeys phone)).length = 1 := by
  obtain ⟨hcands, hnval⟩ := candidateContactKeys_spec phone hnorm
  have hhead : ∃ tail, candidateContactKeys phone
      = normalize_phone phone :: tail := by
    rw [hcands, hnval]
    by_cases h3 : (splitContactId phone).2 = "lid"
    · simp only [if_pos h3]
      exact ⟨_, rfl⟩
    · simp only [if_neg h3]
      exact ⟨_, rfl⟩
  obtain ⟨tail, htl⟩ := hhead
  have hmem_n : normalize_phone phone ∈ candidateContactKeys phone := by
    rw [htl]
    exact List.mem_cons_self _ _
  have hcands_ne : ¬ (candidateContactKeys phone = []) := by
    rw [htl]
    simp
  have hget_n : Store.get store (normalize_phone phone) = none :=
    hfresh _ hmem_n
  have hlook1 : lookupCandidates store (candidateContactKeys phone) = none :=
    lookupCandidates_eq_none _ _ hfresh
  set c : Contact :=
    { phone := normalize_phone phone, category := DEFAULT_UNKNOWN_CATEGORY,
      allow_bot := true, created_at := t1, updated_at := t1, source := "auto",
      routing_reason := "", routing_model := "" } with hc
  have hcat : ¬ (c.category = "") := by
    rw [hc]
    change ¬ (DEFAULT_UNKNOWN_CATEGORY = "")
    decide
  have hsrc : ¬ (c.source = "") := by
    rw [hc]
    change ¬ (("auto" : String) = "")
    decide
  have hc1 : normalizeContact c (normalize_phone phone) t1 = c :=
    normalizeContact_fixed c hcat ht1 ht1 hsrc t1
  have hc2 : normalizeContact c (normalize_phone phone) t2 = c :=
    normalizeContact_fixed c hcat ht1 ht1 hsrc t2
  have hset1 : Store.set store (normalize_phone phone) c
      = store ++ [(normalize_phone phone, c)] :=
    store_set_fresh _ _ _ hget_n
  have hget1n : Store.get (store ++ [(normalize_phone phone, c)])
      (normalize_phone phone) = some c := by
    rw [store_get_append_single store _ c _ hget_n]
    simp
  have hlook2 : lookupCandidates (store ++ [(normalize_phone phone, c)])
      (candidateContactKeys phone) = some (normalize_phone phone, c) := by
    rw [htl]
    simp only [lookupCandidates, hget1n]
  have hset2 : Store.set (store ++ [(normalize_phone phone, c)])
      (normalize_phone phone) c = store ++ [(normalize_phone phone, c)] :=
    store_set_append_self store _ c hget_n
  refine ⟨c, rfl, rfl, rfl, ?_, ?_, ?_⟩
  · simp only [ensure_contact_record, if_neg hcands_ne, hlook1, if_neg hnorm,
      hc1, hset1]
  · simp only [ensure_contact_record, if_neg hcands_ne, hlook2, hc2, hset2]
  · rw [List.filter_append]
    have hstorefilter : store.filter
        (fun p : String × Contact =>
          decide (p.1 ∈ candidateContactKeys phone)) = [] := by
      rw [List.filter_eq_nil_iff]
      intro p hp
      simp only [decide_eq_true_eq]
      intro hmem
      exact store_entries_key_ne store p.1 (hfresh p.1 hmem) p hp rfl
    rw [hstorefilter]
    simp [hmem_n]

/-- Concrete witness for `ensure_contact_record_idempotent`: a fresh store
and the identity `"62811"`. -/
theorem ensure_contact_record_idempotent_witness :
    ((∀ k ∈ candidateContactKeys "62811", Store.get ([] : Store) k = none)
      ∧ normalize_phone "62811" ≠ "" ∧ ¬ (("a" : String) = ""))
    ∧ ∃ c : Contact,
      c.category = DEFAULT_UNKNOWN_CATEGORY ∧ c.allow_bot = true
      ∧ c.source = "auto"
      ∧ (ensure_contact_record ([] : Store) "62811" "a"
            DEFAULT_UNKNOWN_CATEGORY true "auto"
          = ((some c, true), ([] : Store) ++ [(normalize_phone "62811", c)]))
      ∧ (ensure_contact_record (([] : Store) ++ [(normalize_phone "62811", c)])
            "62811" "b" DEFAULT_UNKNOWN_CATEGORY true "auto"
          = ((some c, false), ([] : Store) ++ [(normalize_phone "62811", c)]))
      ∧ ((([] : Store) ++ [(normalize_phone "62811", c)]).filter
          (fun p => p.1 ∈ candidateContactKeys "62811")).length = 1 :=
  ⟨⟨fun _ _ => rfl, by decide, by decide⟩,
   ensure_contact_record_idempotent [] "62811" "a" "b" (fun _ _ => rfl)
    (by decide) (by decide)⟩

/-! ## Conversation state store (`app/services/rag_ollama_whatsapp.py`)

Thread states live in a `shelve` store keyed by `wa_id`; it is modelled as
an ordered association list of raw persisted values.  `_timestamp()` is
passed explicitly as `now`. -/

def DEFAULT_MAX_SEEN_IDS : Nat := 500

def HUMAN_HANDOFF_RESPONSE : String :=
  "Baik, kami akan segera menghubungkan Anda dengan tim Optimaxx.  \nMohon tunggu sebentar ya—tim kami sedang dalam perjalanan untuk membantu Anda. 😊  \n\nJika dalam beberapa menit belum ada balasan, Anda bisa menghubungi kami melalui:  \n📧 Email: info@optimaxx.id  \n🌐 Website: https://optimaxx.id  \n🏢 Alamat: The Mansion Bougenville, Tower Fontana Unit BF33E2, Jl. Trembesi Blok D, Kemayoran - Jakarta Utara 14410"

structure Msg where
  role : String
  content : String
  timestamp : String
  ai_readable : Bool
deriving DecidableEq

/-- `_make_message(role, content, timestamp=…, ai_readable=…)`;
`timestampOpt = none` models the omitted keyword argument and `now` is
`_timestamp()`. -/
def make_message (role content : String) (timestampOpt : Option String)
    (now : String) (ai_readable : Bool) : Msg :=
  { role :=
      let r := pyStrip (if role = "" then "unknown" else role)
      if r = "" then "unknown" else r
    content := content
    timestamp :=
      let t := timestampOpt.getD ""
      if t = "" then now else t
    ai_readable := ai_readable }

/-- `_normalize_message(raw)` on a dict-shaped raw value (a missing/falsy
field is represented by `""`, matching how the code treats it). -/
def normalize_message (raw : Msg) (now : String) : Msg :=
  let role := (if raw.role = "" then "unknown" else raw.role)
  let content := raw.content
  let ts := if raw.timestamp = "" then now else raw.timestamp
  make_message role content (some ts) now raw.ai_readable

structure ThreadState where
  messages : List Msg
  ai_paused : Bool
  handoff_reason : String
  handoff_ts : String
  seen_message_ids : List String
deriving DecidableEq

def default_thread_state : ThreadState :=
  { messages := [], ai_paused := false, handoff_reason := "",
    handoff_ts := "", seen_message_ids := [] }

/-- The raw value found in the shelve store: a dict written by
`_save_thread_state`, a legacy plain message list, or anything else
(including a missing key). -/
inductive RawThread where
  | dict (ai_paused : Bool) (handoff_reason handoff_ts : String)
      (messages : List Msg) (seen : List String)
  | list (messages : List Msg)
  | other
deriving DecidableEq

/-- `_normalize_thread_state(raw)`. -/
def normalize_thread_state (raw : RawThread) (now : String) : ThreadState :=
  match raw with
  | .dict ai_paused handoff_reason handoff_ts messages seen =>
      { messages := messages.map (fun m => normalize_message m now)
        ai_paused := ai_paused
        handoff_reason := handoff_reason
        handoff_ts := handoff_ts
        seen_message_ids := seen.filter (fun i => i ≠ "") }
  | .list messages =>
      { default_thread_state with
          messages := messages.map (fun m => normalize_message m now) }
  | .other => default_thread_state

abbrev ThreadDB : Type := List (String × RawThread)

def dbGet (db : ThreadDB) (k : String) : Option RawThread :=
  (db.find? (fun p => p.1 = k)).map (fun p => p.2)

def dbSet (db : ThreadDB) (k : String) (v : RawThread) : ThreadDB :=
  if db.any (fun p => p.1 = k) then
    db.map (fun p => if p.1 = k then (k, v) else p)
  else db ++ [(k, v)]

/-- The payload dict `_save_thread_state` writes for a state. -/
def save_payload (state : ThreadState) : RawThread :=
  .dict state.ai_paused state.handoff_reason state.handoff_ts
    state.messages state.seen_message_ids

/-- `_save_thread_state(wa_id, state)`. -/
def save_thread_state (db : ThreadDB) (wa_id : String)
    (state : ThreadState) : ThreadDB :=
  dbSet db wa_id (save_payload state)

/-- `_load_thread_state(wa_id)` (`db.get` returns `None` on a missing key,
which `_normalize_thread_state` sends to the default state). -/
def load_thread_state (db : ThreadDB) (wa_id : String) (now : String) :
    ThreadState :=
  normalize_thread_state ((dbGet db wa_id).getD .other) now

/-- `_is_duplicate_message(message_id, state)`: per-conversation seen-id
check with oldest-first truncation to the last `DEFAULT_MAX_SEEN_IDS`
entries.  Returns the result together with the (possibly mutated) state. -/
def is_duplicate_message (messageId : Option String) (state : ThreadState) :
    Bool × ThreadState :=
  match messageId with
  | none => (false, state)
  | some mid =>
      if mid = "" then (false, state)
      else
        let seen := state.seen_message_ids
        if seen.contains mid then (true, state)
        else
          let seen2 := seen ++ [mid]
          let seen3 :=
            if seen2.length > DEFAULT_MAX_SEEN_IDS then
              seen2.drop (seen2.length - DEFAULT_MAX_SEEN_IDS)
            else seen2
          (false, { state with seen_message_ids := seen3 })

/-- `_handle_ai_paused(state, cleaned_body, wa_id, timestamp)`: `none`
models the Python `None` (not paused, nothing saved); otherwise the
paused-period user message is appended as a non-AI-readable log entry, the
state is saved and the empty reply is returned. -/
def handle_ai_paused (state : ThreadState) (cleaned_body : String)
    (timestamp now : String) : Option (ThreadState × String) :=
  if state.ai_paused = false then none
  else
    some ({ state with
      messages := state.messages
        ++ [make_message "user" cleaned_body (some timestamp) now false] }, "")

/-- `_handle_handoff_detection(state, cleaned_body, wa_id, timestamp,
needs_handoff=…, classifier_reason=…)`.  The best-effort
`upsert_contact(..., source="handoff_detect")` side call is modelled on the
contact store separately. -/
def handle_handoff_detection (state : ThreadState) (cleaned_body : String)
    (timestamp now : String) (needs_handoff : Bool)
    (classifier_reason : String) : Option (ThreadState × String) :=
  if state.ai_paused then none
  else if needs_handoff = false then none
  else
    let handoff_reason :=
      if classifier_reason = "" then
        "LLM classified message as human assistance request."
      else classifier_reason
    let msgs := state.messages
      ++ [make_message "user" cleaned_body (some timestamp) now false]
      ++ [make_message "assistant" HUMAN_HANDOFF_RESPONSE none now true]
    some ({ state with
      messages := msgs
      ai_paused := true
      handoff_reason := handoff_reason
      handoff_ts := timestamp }, HUMAN_HANDOFF_RESPONSE)

/-! ### Lemmas about the conversation state store -/

/-- The pause invariant on in-memory thread states. -/
def StateInv (s : ThreadState) : Prop :=
  s.ai_paused = true → s.handoff_reason ≠ ""

/-- The pause invariant on raw persisted values. -/
def RawInv : RawThread → Prop
  | .dict p reason _ _ _ => p = true → reason ≠ ""
  | _ => True

theorem assoc_get_set_self {α : Type} (s : List (String × α)) (k : String)
    (v : α) :
    ((if s.any (fun p => p.1 = k) then
        s.map (fun p => if p.1 = k then (k, v) else p)
      else s ++ [(k, v)]).find? (fun p => p.1 = k)).map (fun p => p.2)
      = some v := by
  induction s with
  | nil => simp [List.find?]
  | cons hd tl ih =>
      by_cases hhd : hd.1 = k
      · have hany : (hd :: tl).any (fun p => p.1 = k) = true := by simp [hhd]
        rw [if_pos hany]
        simp [List.find?_cons, hhd]
      · by_cases hany : tl.any (fun p => p.1 = k) = true
        · rw [if_pos hany] at ih
          have hanycons : (hd :: tl).any (fun p => p.1 = k) = true := by
            simp [hany]
          rw [if_pos hanycons]
          simpa [List.map_cons, if_neg hhd, List.find?_cons, hhd] using ih
        · rw [if_neg hany] at ih
          have hanycons : ¬ ((hd :: tl).any (fun p => p.1 = k) = true) := by
            simp only [List.any_cons, Bool.or_eq_true, decide_eq_true_eq]
            rintro (h | h)
            · exact hhd h
            · exact hany h
          rw [if_neg hanycons]
          simpa [List.find?_cons, hhd] using ih

theorem dbGet_dbSet_self (db : ThreadDB) (k : String) (v : RawThread) :
    dbGet (dbSet db k v) k = some v :=
  assoc_get_set_self db k v

theorem map_id_of_mem {α : Type} (f : α → α) (l : List α)
    (h : ∀ a ∈ l, f a = a) : l.map f = l := by
  induction l with
  | nil => rfl
  | cons hd tl ih =>
      rw [List.map_cons, h hd (List.mem_cons_self hd tl),
        ih (fun a ha => h a (List.mem_cons_of_mem hd ha))]

/-- A message produced by `_make_message` (trimmed non-empty role,
non-empty timestamp) is a fixed point of `_normalize_message`. -/
def WellFormedMsg (m : Msg) : Prop :=
  pyStrip m.role = m.role ∧ m.role ≠ "" ∧ m.timestamp ≠ ""

/-- A thread state as produced by the system itself: all messages
well-formed and all seen ids non-empty. -/
def WellFormedState (s : ThreadState) : Prop :=
  (∀ m ∈ s.messages, WellFormedMsg m)
    ∧ ∀ i ∈ s.seen_message_ids, i ≠ ""

theorem normalize_message_fixed (m : Msg) (now : String)
    (h : WellFormedMsg m) : normalize_message m now = m := by
  obtain ⟨hstrip, hrole, hts⟩ := h
  simp only [normalize_message, make_message, if_neg hrole, if_neg hts,
    hstrip, Option.getD_some]

/-- C8: every mutation path of the conversation state preserves (or
establishes) the pause invariant "if `ai_paused` then `handoff_reason` is
non-empty": (1) normalizing/loading a persisted record that satisfies the
invariant; (2) the paused-message absorption path (`_handle_ai_paused`);
(3) handoff detection (`_handle_handoff_detection`), whose `or`-fallback
reason makes the invariant hold unconditionally when it fires; (4) saving
(`_save_thread_state`); and (5) a save followed by a load. -/
theorem ai_paused_invariant (raw : RawThread) (state : ThreadState)
    (body ts now reason : String) (needs : Bool) (db : ThreadDB)
    (k : String) :
    (RawInv raw → StateInv (normalize_thread_state raw now))
    ∧ (StateInv state → ∀ s' r,
        handle_ai_paused state body ts now = some (s', r) → StateInv s')
    ∧ (∀ s' r, handle_handoff_detection state body ts now needs reason
        = some (s', r) → StateInv s')
    ∧ (StateInv state → RawInv (save_payload state))
    ∧ (StateInv state →
        StateInv (load_thread_state (save_thread_state db k state) k now)) := by
  refine ⟨?_, ?_, ?_, ?_, ?_⟩
  · intro hinv
    cases raw with
    | dict p r hts msgs seen =>
        intro hp
        simp only [normalize_thread_state] at hp ⊢
        exact hinv hp
    | list msgs =>
        intro hp
        simp [normalize_thread_state, default_thread_state] at hp
    | other =>
        intro hp
        simp [normalize_thread_state, default_thread_state] at hp
  · intro hinv s' r heq
    simp only [handle_ai_paused] at heq
    by_cases hp : state.ai_paused = false
    · rw [if_pos hp] at heq
      exact absurd heq (by simp)
    · rw [if_neg hp] at heq
      obtain ⟨hs, -⟩ := Prod.mk.injEq .. ▸ (Option.some.injEq .. ▸ heq)
      intro _
      rw [← hs]
      exact hinv (by simpa using hp)
  · intro s' r heq
    simp only [handle_handoff_detection] at heq
    by_cases hp : state.ai_paused = true
    · rw [if_pos hp] at heq
      exact absurd heq (by simp)
    · rw [if_neg hp] at heq
      by_cases hn : needs = false
      · rw [if_pos hn] at heq
        exact absurd heq (by simp)
      · rw [if_neg hn] at heq
        obtain ⟨hs, -⟩ := Prod.mk.injEq .. ▸ (Option.some.injEq .. ▸ heq)
        intro _
        rw [← hs]
        by_cases hr : reason = ""
        · simp only [if_pos hr]
          decide
        · simp only [if_neg hr]
          exact hr
  · intro hinv hp
    exact hinv hp
  · intro hinv
    simp only [load_thread_state, save_thread_state,
      dbGet_dbSet_self db k (save_payload state), Option.getD_some]
    intro hp
    simp only [save_payload, normalize_thread_state] at hp ⊢
    exact hinv hp

/-- Concrete witness for `ai_paused_invariant`: a paused raw record with a
reason, and a state paused by handoff detection with an empty classifier
reason (exercising the fallback). -/
theorem ai_paused_invariant_witness :
    (RawInv (.dict true "operator asked" "t0" [] [])
      ∧ StateInv (normalize_thread_state (.dict true "operator asked" "t0" [] []) "t1"))
    ∧ (∀ s' r, handle_handoff_detection default_thread_state "help" "t2" "t3"
        true "" = some (s', r) → StateInv s') := by
  constructor
  · constructor
    · intro _
      decide
    · exact (ai_paused_invariant (.dict true "operator asked" "t0" [] [])
        default_thread_state "b" "t" "n" "r" false [] "k").1
        (fun _ => by decide)
  · exact (ai_paused_invariant .other default_thread_state "help" "t2" "t3"
      "" true [] "k").2.2.1

/-- C9: round-trip persistence fidelity.  Saving a well-formed conversation
state under a key and loading that key back yields an identical state:
same message log (roles, contents, timestamps, AI-visibility flags, in
order) and identical `ai_paused`, `handoff_reason`, `handoff_ts` and
seen-event-id values. -/
theorem thread_state_round_trip (db : ThreadDB) (k now : String)
    (s : ThreadState) (h : WellFormedState s) :
    load_thread_state (save_thread_state db k s) k now = s := by
  obtain ⟨hmsgs, hseen⟩ := h
  simp only [load_thread_state, save_thread_state,
    dbGet_dbSet_self db k (save_payload s), Option.getD_some]
  simp only [save_payload, normalize_thread_state]
  rw [map_id_of_mem _ _ (fun m hm => normalize_message_fixed m now (hmsgs m hm))]
  rw [List.filter_eq_self.mpr (fun i hi => by simpa using hseen i hi)]

/-- A sample paused one-message thread state used by the round-trip
witness. -/
def rtSampleState : ThreadState :=
  { messages := [⟨"user", "halo", "t1", true⟩]
    ai_paused := true
    handoff_reason := "asked"
    handoff_ts := "t1"
    seen_message_ids := ["id1"] }

theorem rtSampleState_wf : WellFormedState rtSampleState := by
  constructor
  · intro m hm
    simp only [rtSampleState, List.mem_singleton] at hm
    subst hm
    exact ⟨by decide, by decide, by decide⟩
  · intro i hi
    simp only [rtSampleState, List.mem_singleton] at hi
    subst hi
    decide

/-- Concrete witness for `thread_state_round_trip`: a one-message paused
state saved and reloaded on an empty store. -/
theorem thread_state_round_trip_witness :
    WellFormedState rtSampleState
    ∧ load_thread_state (save_thread_state [] "62" rtSampleState) "62" "t9"
      = rtSampleState :=
  ⟨rtSampleState_wf,
   thread_state_round_trip [] "62" "t9" rtSampleState rtSampleState_wf⟩

/-- C10: events with an empty or missing message id are never suppressed
and never recorded by either deduplication layer: the in-memory filter
(`_is_duplicate_message_id`) and the per-conversation seen-id list
(`_is_duplicate_message`) both report "not a duplicate" and leave their
state untouched. -/
theorem empty_id_never_duplicate (now : Int) (s : List (String × Int))
    (st : ThreadState) :
    dedupCheck now "" s = (false, s)
    ∧ is_duplicate_message none st = (false, st)
    ∧ is_duplicate_message (some "") st = (false, st) := by
  refine ⟨?_, rfl, ?_⟩
  · simp [dedupCheck]
  · simp [is_duplicate_message]

/-! ## Debounce coalescer (`app/utils/whatsapp_utils.py`)

`_DEBOUNCE_BUFFERS[key]` holds a dict per conversation key; the armed
`threading.Timer` is modelled by a generation counter `timerGen`: arming a
fresh timer bumps the generation, and a timer callback whose generation no
longer matches the buffer is exactly a timer that was cancelled (or lost
the race).  `_flush_debounced_messages`'s classifier call is the
`routing : RoutingResult` oracle argument. -/

def MAX_BUFFERED_MESSAGES : Nat := 10

/-- Python `l[-n:]`. -/
def lastN {α : Type} (n : Nat) (l : List α) : List α :=
  l.drop (l.length - n)

structure RoutingResult where
  category : String
  allow_bot : Bool
  reason : String
  model : String
deriving DecidableEq

structure DebounceBuffer where
  messages : List String
  messageIds : List String
  chat_id : String
  wa_id : String
  debounce_seconds : Int
  needs_classification : Bool
  contact : Option Contact
  timerGen : Nat
deriving DecidableEq

/-- The body of `_schedule_debounced_reply` under `_DEBOUNCE_LOCK` (the
early-return branches for a zero window, a missing app context or an empty
key call `_reply_with_llm` directly and never touch the buffer map).
`st0 = none` means the key had no buffer yet (`_DEBOUNCE_BUFFERS.get`
misses and the `{"messages": [], "message_ids": []}` default is used). -/
def schedule_debounced_body (st0 : Option DebounceBuffer)
    (wa_id chat_id message_body : String) (message_id : Option String)
    (needs_classification : Bool) (contact : Option Contact)
    (debounce_seconds : Int) : DebounceBuffer :=
  let st := st0.getD
    { messages := [], messageIds := [], chat_id := "", wa_id := "",
      debounce_seconds := 0, needs_classification := false, contact := none,
      timerGen := 0 }
  let messages := lastN MAX_BUFFERED_MESSAGES
    (st.messages ++ [pyStrip message_body])
  let messageIds :=
    match message_id with
    | some mid =>
        if mid ≠ "" then lastN MAX_BUFFERED_MESSAGES (st.messageIds ++ [mid])
        else st.messageIds
    | none => st.messageIds
  { messages := messages
    messageIds := messageIds
    chat_id := chat_id
    wa_id := if wa_id = "" then chat_id else wa_id
    debounce_seconds := debounce_seconds
    needs_classification := needs_classification
    contact := match contact with
      | some c => some c
      | none => st.contact
    timerGen := st.timerGen + 1 }

def VAGUE_GREETING_TOKENS : List String :=
  ["halo", "hai", "hi", "hello", "pagi", "siang", "sore", "malam",
   "selamat", "assalamualaikum", "salam", "permisi", "test"]

def VAGUE_HONORIFICS : List String :=
  ["pak", "bu", "ibu", "bapak", "mbak", "mas", "kak", "kakak", "admin",
   "min", "gan", "bang", "bro", "sis", "om", "tante"]

/-- A character matched by `[a-z0-9]` (the text is lowercased first). -/
def isTokenChar (c : Char) : Bool :=
  (decide ('a' ≤ c) && decide (c ≤ 'z')) || c.isDigit

/-- `re.findall(r"[a-z0-9]+", text)`: maximal runs of token characters. -/
def tokenRunsAux (cur : List Char) : List Char → List String
  | [] => if cur = [] then [] else [⟨cur.reverse⟩]
  | c :: rest =>
      if isTokenChar c then tokenRunsAux (c :: cur) rest
      else if cur = [] then tokenRunsAux [] rest
      else (⟨cur.reverse⟩ : String) :: tokenRunsAux [] rest

def findTokens (s : String) : List String := tokenRunsAux [] s.data

/-- `_is_vague_greeting(message_body)`. -/
def is_vague_greeting (message_body : String) : Bool :=
  let text := pyLower (pyStrip message_body)
  if text = "" then false
  else
    let tokens := findTokens text
    if tokens = [] then true
    else
      let remaining := tokens.filter
        (fun t => t ∉ VAGUE_GREETING_TOKENS ∧ t ∉ VAGUE_HONORIFICS)
      remaining = []

def VAGUE_REASON_TOKENS : List String :=
  ["vague", "ambigu", "ambiguous", "tidak jelas", "kurang jelas",
   "bukan pembuka", "opening signal", "ragu", "unclear",
   "tidak masuk akal"]

/-- `_is_vague_routing_reason(reason)` (`token in text` is substring
containment). -/
def is_vague_routing_reason (reason : String) : Bool :=
  let text := pyLower (pyStrip reason)
  if text = "" then false
  else VAGUE_REASON_TOKENS.any (fun tok => decide (tok.data <:+: text.data))

/-- `[str(m).strip() for m in state.get("messages") or [] if str(m).strip()]` -/
def flush_messages (b : DebounceBuffer) : List String :=
  (b.messages.map pyStrip).filter (fun m => m ≠ "")

/-- What a fired flush does after popping the buffer entry.
`routing` is the oracle for `_classify_message_for_routing`'s return value
(consulted only when classification is needed); `clarifyAmbiguousRouting`,
`routingBlocked` and `replyAfterRouting` all persist the routing decision
via `_persist_routing_decision` except the first, which returns before the
persist call. -/
inductive FlushAction where
  | emptyDrop
  | clarifyGreeting
  | clarifyAmbiguousRouting (routing : RoutingResult)
  | routingBlocked (routing : RoutingResult)
  | replyAfterRouting (routing : RoutingResult) (combined : String)
  | reply (combined : String)
deriving DecidableEq

/-- The decision structure of `_flush_debounced_messages` after the buffer
entry has been popped. -/
def flush_action (b : DebounceBuffer) (routing : RoutingResult) :
    FlushAction :=
  let messages := flush_messages b
  if messages = [] then .emptyDrop
  else
    let combined := pyStrip (String.intercalate "\n" messages)
    if combined = "" then .emptyDrop
    else if b.needs_classification ∧ is_vague_greeting combined then
      .clarifyGreeting
    else if b.needs_classification then
      if is_vague_routing_reason routing.reason then
        .clarifyAmbiguousRouting routing
      else if routing.allow_bot = false then .routingBlocked routing
      else .replyAfterRouting routing combined
    else .reply combined

/-- One conversation key's debounce world: the buffer slot in
`_DEBOUNCE_BUFFERS` plus the log of processed flushes. -/
structure DebounceSys where
  buffer : Option DebounceBuffer
  flushes : List FlushAction
deriving DecidableEq

/-- A new inbound text for the key (`_schedule_debounced_reply`). -/
def debounce_arrive (sys : DebounceSys) (wa_id chat_id body : String)
    (mid : Option String) (needs : Bool) (contact : Option Contact)
    (secs : Int) : DebounceSys :=
  { sys with buffer := some (schedule_debounced_body sys.buffer wa_id
      chat_id body mid needs contact secs) }

/-- An armed timer of generation `gen` fires
(`_flush_debounced_messages`): the buffer entry is popped first; a
generation mismatch is a cancelled/raced timer and is a no-op. -/
def debounce_fire (sys : DebounceSys) (gen : Nat)
    (routing : RoutingResult) : DebounceSys :=
  match sys.buffer with
  | none => sys
  | some b =>
      if b.timerGen = gen then
        { buffer := none, flushes := sys.flushes ++ [flush_action b routing] }
      else sys

/-- The "A" then "B" burst: two arrivals for one key within one window,
starting from an idle key. -/
def abScenario : DebounceSys :=
  debounce_arrive
    (debounce_arrive ⟨none, []⟩ "62" "62@c.us" "A" (some "m1") false none 60)
    "62" "62@c.us" "B" (some "m2") false none 60

/-- C2: for a key already holding a buffered burst `b`:
(1) a new inbound text cancels and re-arms the timer (fresh generation
`b.timerGen + 1`) and appends the text bounded to the burst cap with the
oldest entries dropped first (`messages[-10:]`);
(2) the cancelled old-generation timer firing afterwards is a no-op;
(3) a current-generation fire removes the buffer entry (slot becomes
`none`) and processes the single coalesced flush;
(4) concretely, "A" then "B" in one window yield exactly one flush
containing `"A\nB"`, also after a stale fire and a repeated fire. -/
theorem debounce_coalescing_spec (sys : DebounceSys) (b : DebounceBuffer)
    (hbuf : sys.buffer = some b) (wa chat body : String) (mid : Option String)
    (needs : Bool) (contact : Option Contact) (secs : Int)
    (routing : RoutingResult) :
    ((schedule_debounced_body (some b) wa chat body mid needs contact
        secs).messages
      = lastN MAX_BUFFERED_MESSAGES (b.messages ++ [pyStrip body])
    ∧ (schedule_debounced_body (some b) wa chat body mid needs contact
        secs).messages.length ≤ MAX_BUFFERED_MESSAGES
    ∧ (schedule_debounced_body (some b) wa chat body mid needs contact
        secs).timerGen = b.timerGen + 1)
    ∧ debounce_fire (debounce_arrive sys wa chat body mid needs contact secs)
        b.timerGen routing
      = debounce_arrive sys wa chat body mid needs contact secs
    ∧ debounce_fire (debounce_arrive sys wa chat body mid needs contact secs)
        (b.timerGen + 1) routing
      = { buffer := none,
          flushes := sys.flushes
            ++ [flush_action (schedule_debounced_body (some b) wa chat body
                  mid needs contact secs) routing] }
    ∧ (debounce_fire abScenario 1 routing = abScenario
      ∧ debounce_fire abScenario 2 routing = ⟨none, [.reply "A\nB"]⟩
      ∧ debounce_fire (debounce_fire abScenario 2 routing) 2 routing
          = ⟨none, [.reply "A\nB"]⟩) := by
  refine ⟨⟨rfl, ?_, rfl⟩, ?_, ?_, ?_, ?_, ?_⟩
  · show (lastN MAX_BUFFERED_MESSAGES (b.messages ++ [pyStrip body])).length
      ≤ MAX_BUFFERED_MESSAGES
    simp only [lastN, List.length_drop]
    omega
  · simp only [debounce_arrive, debounce_fire, hbuf]
    have hgen : ¬ ((schedule_debounced_body (some b) wa chat body mid needs
        contact secs).timerGen = b.timerGen) := by
      show ¬ (b.timerGen + 1 = b.timerGen)
      omega
    rw [if_neg hgen]
  · simp only [debounce_arrive, debounce_fire, hbuf]
    have hgen : (schedule_debounced_body (some b) wa chat body mid needs
        contact secs).timerGen = b.timerGen + 1 := rfl
    rw [if_pos hgen]
  · rfl
  · rfl
  · rfl

/-- Concrete witness for `debounce_coalescing_spec`: a buffering key
holding "A" receives "B"; the cancelled timer's fire is a no-op. -/
theorem debounce_coalescing_spec_witness :
    ((⟨some ⟨["A"], ["m1"], "62@c.us", "62", 60, false, none, 1⟩, []⟩ :
        DebounceSys).buffer
      = some ⟨["A"], ["m1"], "62@c.us", "62", 60, false, none, 1⟩)
    ∧ debounce_fire (debounce_arrive
        ⟨some ⟨["A"], ["m1"], "62@c.us", "62", 60, false, none, 1⟩, []⟩
        "62" "62@c.us" "B" (some "m2") false none 60) 1 ⟨"x", true, "r", "m"⟩
      = debounce_arrive
        ⟨some ⟨["A"], ["m1"], "62@c.us", "62", 60, false, none, 1⟩, []⟩
        "62" "62@c.us" "B" (some "m2") false none 60 :=
  ⟨rfl, (debounce_coalescing_spec
    ⟨some ⟨["A"], ["m1"], "62@c.us", "62", 60, false, none, 1⟩, []⟩
    ⟨["A"], ["m1"], "62@c.us", "62", 60, false, none, 1⟩ rfl
    "62" "62@c.us" "B" (some "m2") false none 60 ⟨"x", true, "r", "m"⟩).2.1⟩

/-- C6 counterexample: the claim says **every** debounce flush of a bare
greeting sends the clarifying prompt and skips generation, but the
vague-greeting check only runs when the contact still needs first-contact
classification: a flush of `"halo"` with `needs_classification = false`
invokes the response-generation path. -/
theorem flush_vague_greeting_cex :
    is_vague_greeting "halo" = true
    ∧ flush_action ⟨["halo"], ["m1"], "62@c.us", "62", 60, false, none, 1⟩
        ⟨"external_unknown", true, "fallback", "m"⟩ = .reply "halo"
    ∧ flush_action ⟨["halo"], ["m1"], "62@c.us", "62", 60, false, none, 1⟩
        ⟨"external_unknown", true, "fallback", "m"⟩ ≠ .clarifyGreeting :=
  ⟨by decide, by decide, by decide⟩

/-- C6 (amended): on every debounce flush **for a contact still needing
first-contact classification**, if the coalesced text is a bare greeting
with no discernible intent, the flush resolves to the single clarifying
prompt and stops — the response-generation collaborator (and even the
routing classifier) is not invoked. -/
theorem flush_vague_greeting_clarifies (b : DebounceBuffer)
    (routing : RoutingResult) (hneeds : b.needs_classification = true)
    (hv : is_vague_greeting (pyStrip (String.intercalate "\n"
        (flush_messages b))) = true) :
    flush_action b routing = .clarifyGreeting := by
  simp only [flush_action]
  by_cases hm : flush_messages b = []
  · rw [hm] at hv
    exact absurd hv (by decide)
  · rw [if_neg hm]
    by_cases hc : pyStrip (String.intercalate "\n" (flush_messages b)) = ""
    · rw [hc] at hv
      exact absurd hv (by decide)
    · rw [if_neg hc, if_pos ⟨hneeds, hv⟩]

/-- Concrete witness for `flush_vague_greeting_clarifies`: a buffered
`"halo"` with classification pending. -/
theorem flush_vague_greeting_clarifies_witness :
    ((⟨["halo"], ["m1"], "62@c.us", "62", 60, true, none, 1⟩ :
        DebounceBuffer).needs_classification = true
      ∧ is_vague_greeting (pyStrip (String.intercalate "\n" (flush_messages
          ⟨["halo"], ["m1"], "62@c.us", "62", 60, true, none, 1⟩))) = true)
    ∧ flush_action ⟨["halo"], ["m1"], "62@c.us", "62", 60, true, none, 1⟩
        ⟨"external_unknown", true, "fallback", "m"⟩ = .clarifyGreeting :=
  ⟨⟨rfl, by decide⟩,
   flush_vague_greeting_clarifies
    ⟨["halo"], ["m1"], "62@c.us", "62", 60, true, none, 1⟩
    ⟨"external_unknown", true, "fallback", "m"⟩ rfl (by decide)⟩

/-! ## Classifier fallbacks
(`_run_combined_checks` in `app/services/rag_ollama_whatsapp.py`,
`_classify_message_for_routing` in `app/utils/whatsapp_utils.py`)

The LLM call and JSON extraction are the oracle arguments: `none` /
`.unparsed` models `_extract_json_object` returning `None` (or a non-dict
value), `.error` a raised exception. -/

def pyUpper (s : String) : String :=
  ⟨s.data.map Char.toUpper⟩

structure CombinedChecks where
  needs_human : Bool
  handoff_reason : String
  help_intent : String
  is_domain_question : Bool
  can_answer_without_context : Bool
deriving DecidableEq

/-- The `defaults` dict of `_run_combined_checks`. -/
def combined_defaults : CombinedChecks :=
  { needs_human := false, handoff_reason := "", help_intent := "OTHER",
    is_domain_question := true, can_answer_without_context := false }

/-- A parsed combined-check JSON object; `""` models a missing/falsy
string field, `none` a missing boolean key. -/
structure CombinedJson where
  needs_human : Option Bool
  handoff_reason : String
  help_intent : String
  is_domain_question : Option Bool
  can_answer_without_context : Option Bool
deriving DecidableEq

/-- `_run_combined_checks(question, …)`: `outcome = none` models an empty
raw output, unparseable JSON, a non-dict value, or a classifier
exception — all of which return `defaults`. -/
def run_combined_checks (question : String)
    (outcome : Option CombinedJson) : CombinedChecks :=
  if question = "" then combined_defaults
  else
    match outcome with
    | none => combined_defaults
    | some parsed =>
        let intent := pyUpper (pyStrip parsed.help_intent)
        { needs_human := parsed.needs_human.getD combined_defaults.needs_human
          handoff_reason := pyStrip parsed.handoff_reason
          help_intent :=
            if intent = "ACADEMIC" ∨ intent = "BUSINESS" ∨ intent = "OTHER"
            then intent else combined_defaults.help_intent
          is_domain_question := parsed.is_domain_question.getD
            combined_defaults.is_domain_question
          can_answer_without_context :=
            parsed.can_answer_without_context.getD
              combined_defaults.can_answer_without_context }

/-- `_normalize_routing_category(raw) -> (contact_category,
allow_bot_default)`. -/
def normalize_routing_category (raw : String) : String × Bool :=
  let token : String :=
    ⟨(pyLower raw).data.filter (fun c => decide ('a' ≤ c) && decide (c ≤ 'z'))⟩
  if token = "customerquestion" then ("lead", true)
  else if token = "customer" then ("lead", true)
  else if token = "lead" then ("lead", true)
  else if token = "prospect" then ("lead", true)
  else if token = "sales" then ("lead", true)
  else if token = "academichelp" then ("academic", true)
  else if token = "academic" then ("academic", true)
  else if token = "student" then ("academic", true)
  else if token = "internalorpartner" then ("vendor", false)
  else if token = "internal" then ("vendor", false)
  else if token = "partner" then ("vendor", false)
  else if token = "vendor" then ("vendor", false)
  else if token = "supplier" then ("vendor", false)
  else if token = "employee" then ("vendor", false)
  else if token = "personalchat" then ("other", false)
  else if token = "other" then ("other", false)
  else ("other", false)

/-- A parsed routing JSON object; `allow_bot = none` models a missing
`allow_bot` key (the code then defaults to the mapped category's flag). -/
structure RoutingJson where
  category : String
  allow_bot : Option Bool
  reason : String
deriving DecidableEq

/-- What the routing classifier call produced. -/
inductive ClassifierOutcome where
  | error
  | unparsed
  | parsed (obj : RoutingJson)
deriving DecidableEq

/-- `_classify_message_for_routing(wa_id, message_body, contact)`;
`modelName` is `_get_classifier_model()`. -/
def classify_message_for_routing (message_body : String)
    (contact : Option Contact) (modelName : String)
    (outcome : ClassifierOutcome) : RoutingResult :=
  let fallback_category :=
    match contact with
    | some c => if c.category = "" then DEFAULT_UNKNOWN_CATEGORY
        else c.category
    | none => DEFAULT_UNKNOWN_CATEGORY
  let fallback_allow :=
    match contact with
    | some c => c.allow_bot
    | none => true
  let result : RoutingResult :=
    ⟨fallback_category, fallback_allow, "fallback", modelName⟩
  if pyStrip message_body = "" then { result with reason := "empty_message" }
  else
    match outcome with
    | .error => { result with reason := "classifier_error" }
    | .unparsed => { result with reason := "unparsed_output" }
    | .parsed obj =>
        let mapped := normalize_routing_category obj.category
        let allow_bot := (obj.allow_bot.getD mapped.2) && mapped.2
        let reason :=
          if pyStrip obj.reason = "" then "llm_routing" else pyStrip obj.reason
        let category := if mapped.1 = "" then fallback_category else mapped.1
        { category := category, allow_bot := allow_bot, reason := reason,
          model := modelName }

/-- C5 counterexample: on unparseable routing-classifier output for an
unknown contact and a non-empty message, the routing result keeps the
contact fallback — category `external_unknown` (not `"other"`) with
`allow_bot = true` (the bot **is** allowed to reply), and the
`"unparsed_output"` reason is not even treated as ambiguous by the flush
pipeline. -/
theorem routing_unparsed_fallback_cex :
    classify_message_for_routing "mau tanya" none "m" .unparsed
      = ⟨"external_unknown", true, "unparsed_output", "m"⟩
    ∧ (classify_message_for_routing "mau tanya" none "m" .unparsed).allow_bot
        ≠ false
    ∧ (classify_message_for_routing "mau tanya" none "m" .unparsed).category
        ≠ "other"
    ∧ is_vague_routing_reason "unparsed_output" = false :=
  ⟨by decide, by decide, by decide, by decide⟩

/-- C5 (amended): for every classifier output that is not parseable as a
JSON object the system degrades without raising: the combined guard check
returns its conservative defaults (in particular `needs_human = false`, no
handoff), and the routing classification falls back to the contact
snapshot — the contact's existing category and allow-bot flag, or
`external_unknown` with the bot allowed for an unknown contact — with
reason `"unparsed_output"`. -/
theorem classifier_unparsed_fallback (q body modelName : String)
    (contact : Option Contact) :
    (run_combined_checks q none = combined_defaults
      ∧ (run_combined_checks q none).needs_human = false)
    ∧ (pyStrip body ≠ "" →
        classify_message_for_routing body contact modelName .unparsed
          = { category :=
                match contact with
                | some c => if c.category = "" then DEFAULT_UNKNOWN_CATEGORY
                    else c.category
                | none => DEFAULT_UNKNOWN_CATEGORY
              allow_bot :=
                match contact with
                | some c => c.allow_bot
                | none => true
              reason := "unparsed_output"
              model := modelName }) := by
  constructor
  · by_cases hq : q = "" <;> simp [run_combined_checks, hq, combined_defaults]
  · intro h
    simp only [classify_message_for_routing]
    rw [if_neg h]

/-- Concrete witness for `classifier_unparsed_fallback`: the non-empty
message `"mau tanya"` for an unknown contact. -/
theorem classifier_unparsed_fallback_witness :
    (pyStrip "mau tanya" ≠ "")
    ∧ classify_message_for_routing "mau tanya" none "m" .unparsed
        = { category := DEFAULT_UNKNOWN_CATEGORY, allow_bot := true,
            reason := "unparsed_output", model := "m" } :=
  ⟨by decide,
   (classifier_unparsed_fallback "q" "mau tanya" "m" none).2 (by decide)⟩

/-! ## Webhook processing pipeline (`process_whatsapp_message`) and the
manual-outbound pause (`pause_thread_for_manual_message`)

External effects that the pipeline only branches on are oracle inputs:
`stale` is `_is_stale_message(...)` (wall clock), `whitelistBlocked` is
`_is_blocked_by_test_whitelist(wa_id)` (config), and `policy` is the
result of `_apply_contact_policy` (contact + history I/O); `none` means
"bot must not continue".  The in-memory caches and stores are threaded
through `SysState`. -/

/-- `normalize_wa_id(raw)`: strip the domain after `'@'` if present. -/
def normalize_wa_id (raw : String) : String :=
  let value := pyStrip raw
  if value = "" then ""
  else if value.data.contains '@' then ⟨beforeAt value.data⟩
  else value

/-- `normalize_chat_id(raw)` (the `_CHAT_ID_CACHE.setdefault` side effect
on the `'@'` branch does not change the returned value and is not
modelled). -/
def normalize_chat_id (raw : String) : String :=
  let chat_id := pyStrip raw
  if chat_id = "" then ""
  else if chat_id.data.contains '@' then chat_id
  else if chat_id.data.contains '-' then chat_id ++ "@g.us"
  else
    let digits : String := ⟨chat_id.data.filter Char.isDigit⟩
    let base := if digits = "" then chat_id else digits
    base ++ "@c.us"

/-- `_debounce_key(wa_id, chat_id)`. -/
def debounce_key (wa_id chat_id : String) : String :=
  if pyStrip wa_id = "" then pyStrip chat_id else pyStrip wa_id

/-- `pause_thread_for_manual_message(wa_id, message_body=…)`: flips the
contact record to `allow_bot=false` via the contact store, skipping the
write when the bot is already disabled (the unused `message_body` /
`timestamp` parameters are dropped). -/
def pause_thread_for_manual_message (store : Store) (wa_id : String)
    (reason : Option String) (now : String) : Store :=
  if wa_id = "" then store
  else
    let pause_reason :=
      match reason with
      | some r => if r = "" then "manual_outbound_message" else r
      | none => "manual_outbound_message"
    match get_contact store wa_id now with
    | some c =>
        if c.allow_bot = false then store
        else (upsert_contact store wa_id (some "other") (some false)
          (some "manual_outbound") (some pause_reason)
          (some "manual_outbound") now).2
    | none => (upsert_contact store wa_id (some "other") (some false)
        (some "manual_outbound") (some pause_reason)
        (some "manual_outbound") now).2

structure Payload where
  fromField : String
  author : String
  body : String
  id : String
  hasMedia : Bool
  fromMe : Bool
  source : String
  toField : String
  lid : String
deriving DecidableEq

/-- A webhook body; `event = ""` models a missing/falsy `event` key. -/
structure WebhookBody where
  event : String
  payload : Option Payload
deriving DecidableEq

/-- `is_valid_whatsapp_message(body)`. -/
def is_valid_whatsapp_message (body : WebhookBody) : Bool :=
  if body.event ≠ "" ∧ body.event ≠ "message" ∧ body.event ≠ "message.any"
  then false
  else
    match body.payload with
    | none => false
    | some p =>
        if p.fromMe ∧ pyLower p.source = "api" then false
        else
          let chat_id := if p.fromField = "" then p.author else p.fromField
          chat_id ≠ ""

def bufGet (bufs : List (String × DebounceBuffer)) (k : String) :
    Option DebounceBuffer :=
  (bufs.find? (fun p => p.1 = k)).map (fun p => p.2)

def bufSet (bufs : List (String × DebounceBuffer)) (k : String)
    (v : DebounceBuffer) : List (String × DebounceBuffer) :=
  if bufs.any (fun p => p.1 = k) then
    bufs.map (fun p => if p.1 = k then (k, v) else p)
  else bufs ++ [(k, v)]

/-- `_cancel_debounce_buffer(key)`: pop the entry (cancelling its armed
timer). -/
def cancel_debounce_buffer (bufs : List (String × DebounceBuffer))
    (key : String) : List (String × DebounceBuffer) :=
  if key = "" then bufs else bufs.filter (fun p => p.1 ≠ key)

/-- The process-wide mutable state `process_whatsapp_message` touches. -/
structure SysState where
  dedup : List (String × Int)
  buffers : List (String × DebounceBuffer)
  contacts : Store
deriving DecidableEq

inductive ProcResult where
  | rejectedInvalid
  | rejectedStale
  | rejectedDuplicate
  | rejectedApiSelf
  | rejectedWhitelist
  | manualOutbound (targetKey pausedId : String)
  | contactBlocked (key : String)
  | ignoredMedia
  | ignoredEmpty
  | scheduled (wa_id chat_id msg_body msg_id : String)
deriving DecidableEq

/-- `process_whatsapp_message(body)` as a transition on `SysState`.
`policy = some (contact, needs_classification)` is the oracle for a
successful `_apply_contact_policy`; `now` feeds the dedup filter and
`iso_now` the contact store. -/
def process_whatsapp_message (body : WebhookBody) (st : SysState)
    (stale whitelistBlocked : Bool)
    (policy : Option (Option Contact × Bool)) (now : Int)
    (iso_now : String) (debounce_seconds : Int) :
    SysState × ProcResult :=
  if is_valid_whatsapp_message body = false then (st, .rejectedInvalid)
  else
    match body.payload with
    | none => (st, .rejectedInvalid)
    | some p =>
        let chat_id_raw :=
          pyStrip (if p.fromField = "" then p.author else p.fromField)
        let wa_id := normalize_wa_id chat_id_raw
        let message_body := pyStrip p.body
        let message_id := pyStrip p.id
        let source := pyLower p.source
        let to_raw := pyStrip p.toField
        let chat_id :=
          normalize_chat_id (if chat_id_raw = "" then wa_id else chat_id_raw)
        if stale then (st, .rejectedStale)
        else
          let dup := dedupCheck now message_id st.dedup
          let st1 : SysState := { st with dedup := dup.2 }
          if dup.1 then (st1, .rejectedDuplicate)
          else if p.fromMe ∧ source = "api" then (st1, .rejectedApiSelf)
          else if whitelistBlocked then (st1, .rejectedWhitelist)
          else if p.fromMe then
            let target_raw :=
              if to_raw ≠ "" then to_raw
              else if chat_id_raw ≠ "" then chat_id_raw else wa_id
            let target_wa_id := normalize_wa_id target_raw
            let target_chat_id :=
              normalize_chat_id (if target_raw = "" then chat_id
                else target_raw)
            let key := debounce_key target_wa_id target_chat_id
            let paused_id :=
              if target_wa_id = "" then target_chat_id else target_wa_id
            ({ st1 with
                buffers := cancel_debounce_buffer st1.buffers key
                contacts := pause_thread_for_manual_message st1.contacts
                  paused_id none iso_now },
              .manualOutbound key paused_id)
          else
            match policy with
            | none =>
                let key0 := debounce_key wa_id chat_id
                ({ st1 with
                    buffers := cancel_debounce_buffer st1.buffers key0 },
                  .contactBlocked key0)
            | some (contact, needs) =>
                if p.hasMedia then (st1, .ignoredMedia)
                else if message_body = "" then (st1, .ignoredEmpty)
                else
                  let key := debounce_key wa_id chat_id
                  if debounce_seconds ≤ 0 ∨ key = "" then
                    (st1, .scheduled wa_id chat_id message_body message_id)
                  else
                    let b' := schedule_debounced_body (bufGet st1.buffers key)
                      wa_id chat_id message_body (some message_id) needs
                      contact debounce_seconds
                    ({ st1 with buffers := bufSet st1.buffers key b' },
                      .scheduled wa_id chat_id message_body message_id)

/-! ### Lemmas about the manual-outbound pause -/

theorem find?_append_some {α : Type} (p : α → Bool) (l1 l2 : List α)
    (x : α) (h : l1.find? p = some x) : (l1 ++ l2).find? p = some x := by
  induction l1 with
  | nil => simp [List.find?] at h
  | cons hd tl ih =>
      rw [List.find?_cons] at h
      rcases hp : p hd with _ | _
      · rw [hp] at h
        rw [List.cons_append, List.find?_cons, hp]
        exact ih h
      · rw [hp] at h
        rw [List.cons_append, List.find?_cons, hp]
        exact h

theorem find?_map_set (l : List (String × Contact)) (k k' : String)
    (v : Contact) (hne : ¬ (k' = k)) :
    (l.map (fun p => if p.1 = k then (k, v) else p)).find?
        (fun p => p.1 = k')
      = l.find? (fun p => p.1 = k') := by
  induction l with
  | nil => rfl
  | cons hd tl ih =>
      by_cases hhd : hd.1 = k
      · have h1 : ((k, v) : String × Contact).1 = k' ↔ False := by
          simp only [iff_false]
          intro he
          exact hne (he.symm)
        rw [List.map_cons, if_pos hhd, List.find?_cons, List.find?_cons]
        have h2 : (decide (((k, v) : String × Contact).1 = k')) = false := by
          simp [h1]
        have h3 : (decide (hd.1 = k')) = false := by
          rw [hhd]
          simp [h1]
        rw [h2, h3]
        exact ih
      · rw [List.map_cons, if_neg hhd, List.find?_cons, List.find?_cons]
        rcases hp : (decide (hd.1 = k')) with _ | _
        · exact ih
        · rfl

theorem store_get_set_self (s : Store) (k : String) (v : Contact) :
    Store.get (Store.set s k v) k = some v :=
  assoc_get_set_self s k v

theorem store_get_set_ne (s : Store) (k : String) (v : Contact)
    (k' : String) (hne : ¬ (k' = k)) :
    Store.get (Store.set s k v) k' = Store.get s k' := by
  show ((if s.any (fun p => p.1 = k) then
      s.map (fun p => if p.1 = k then (k, v) else p)
    else s ++ [(k, v)]).find? (fun p => p.1 = k')).map (fun p => p.2) = _
  by_cases hany : s.any (fun p => p.1 = k) = true
  · rw [if_pos hany, find?_map_set s k k' v hne]
    rfl
  · rw [if_neg hany]
    cases hf : s.find? (fun p => p.1 = k') with
    | some x =>
        rw [find?_append_some _ s _ x hf]
        show some x.2 = Store.get s k'
        rw [Store.get, hf]
        rfl
    | none =>
        rw [find?_append_none _ s _ hf]
        have : (([(k, v)] : List (String × Contact)).find?
            (fun p => p.1 = k')) = none := by
          have hd : (decide (k = k')) = false := by
            simp only [decide_eq_false_iff_not]
            intro h
            exact hne h.symm
          simp [List.find?, hd]
        rw [this]
        show (none : Option Contact) = Store.get s k'
        rw [Store.get, hf]
        rfl

theorem lookup_found_get (store : Store) (ks : List String) (key : String)
    (c : Contact) (h : lookupCandidates store ks = some (key, c)) :
    Store.get store key = some c ∧ key ∈ ks := by
  induction ks with
  | nil => simp [lookupCandidates] at h
  | cons k rest ih =>
      cases hk : Store.get store k with
      | some c0 =>
          rw [lookupCandidates, hk] at h
          obtain ⟨h1, h2⟩ := Prod.mk.injEq .. ▸ (Option.some.injEq .. ▸ h)
          subst h1
          subst h2
          exact ⟨hk, List.mem_cons_self _ _⟩
      | none =>
          rw [lookupCandidates, hk] at h
          obtain ⟨hg, hm⟩ := ih h
          exact ⟨hg, List.mem_cons_of_mem _ hm⟩

theorem lookupCandidates_after_set (store : Store) (ks : List String)
    (key : String) (c0 v : Contact)
    (hfound : lookupCandidates store ks = some (key, c0)) :
    lookupCandidates (Store.set store key v) ks = some (key, v) := by
  induction ks with
  | nil => simp [lookupCandidates] at hfound
  | cons k rest ih =>
      cases hk : Store.get store k with
      | some c =>
          rw [lookupCandidates, hk] at hfound
          obtain ⟨h1, -⟩ := Prod.mk.injEq .. ▸ (Option.some.injEq .. ▸ hfound)
          subst h1
          rw [lookupCandidates, store_get_set_self]
      | none =>
          rw [lookupCandidates, hk] at hfound
          have hkne : ¬ (k = key) := by
            intro he
            subst he
            rw [(lookup_found_get store rest k c0 hfound).1] at hk
            exact Option.noConfusion hk
          rw [lookupCandidates, store_get_set_ne store key v k hkne, hk]
          exact ih hfound

theorem lookup_none_all (store : Store) (ks : List String)
    (h : lookupCandidates store ks = none) :
    ∀ k ∈ ks, Store.get store k = none := by
  induction ks with
  | nil => intro k hk; simp at hk
  | cons k rest ih =>
      intro k' hk'
      cases hk : Store.get store k with
      | some c =>
          rw [lookupCandidates, hk] at h
          exact Option.noConfusion h
      | none =>
          rw [lookupCandidates, hk] at h
          rcases List.mem_cons.mp hk' with rfl | hmem
          · exact hk
          · exact ih h k' hmem

/-- After `upsert_contact(tid, category="other", allow_bot=False,
source="manual_outbound", …)` succeeds, `get_contact` sees a record with
the bot disabled and source `"manual_outbound"`. -/
theorem upsert_pause_written (store : Store) (tid r now : String)
    (hok : (∃ key c0, lookupCandidates store (candidateContactKeys tid)
        = some (key, c0)) ∨ normalize_phone tid ≠ "") :
    ∃ c', get_contact (upsert_contact store tid (some "other") (some false)
        (some "manual_outbound") (some r) (some "manual_outbound") now).2
        tid now = some c'
      ∧ c'.allow_bot = false ∧ c'.source = "manual_outbound"
      ∧ c'.category = "other" := by
  rcases hlook : lookupCandidates store (candidateContactKeys tid) with _ | kc
  · -- fresh identity path
    have hnorm : normalize_phone tid ≠ "" := by
      rcases hok with ⟨key, c0, hfound⟩ | hn
      · rw [hlook] at hfound
        exact Option.noConfusion hfound
      · exact hn
    obtain ⟨hcands, hnval⟩ := candidateContactKeys_spec tid hnorm
    have hhead : ∃ tail, candidateContactKeys tid
        = normalize_phone tid :: tail := by
      rw [hcands, hnval]
      by_cases h3 : (splitContactId tid).2 = "lid"
      · simp only [if_pos h3]
        exact ⟨_, rfl⟩
      · simp only [if_neg h3]
        exact ⟨_, rfl⟩
    obtain ⟨tail, htl⟩ := hhead
    have hcands_ne : ¬ (candidateContactKeys tid = []) := by
      rw [htl]
      simp
    simp only [upsert_contact, if_neg hcands_ne, hlook, if_neg hnorm]
    simp only [get_contact, htl, lookupCandidates, store_get_set_self]
    exact ⟨_, rfl, rfl, rfl, rfl⟩
  · -- existing record path
    obtain ⟨key, c0⟩ := kc
    have hcands_ne : ¬ (candidateContactKeys tid = []) := by
      intro he
      rw [he] at hlook
      exact Option.noConfusion hlook
    simp only [upsert_contact, if_neg hcands_ne, hlook]
    simp only [get_contact,
      lookupCandidates_after_set store _ key c0 _ hlook]
    exact ⟨_, rfl, rfl, rfl, rfl⟩

/-- `pause_thread_for_manual_message` semantics: it skips the write when
the contact is already `allow_bot=false`, and otherwise (existing allowed
contact, or a fresh normalizable identity) it leaves a record with
`allow_bot=false`, source `"manual_outbound"` and category `"other"`. -/
theorem pause_thread_spec (store : Store) (tid now : String) :
    ((∃ c, get_contact store tid now = some c ∧ c.allow_bot = false) →
      pause_thread_for_manual_message store tid none now = store)
    ∧ (tid ≠ "" →
        (match get_contact store tid now with
         | some c => c.allow_bot = true
         | none => normalize_phone tid ≠ "") →
        ∃ c', get_contact
            (pause_thread_for_manual_message store tid none now) tid now
            = some c'
          ∧ c'.allow_bot = false ∧ c'.source = "manual_outbound"
          ∧ c'.category = "other") := by
  constructor
  · rintro ⟨c, hget, hc⟩
    by_cases htid : tid = ""
    · simp [pause_thread_for_manual_message, htid]
    · simp only [pause_thread_for_manual_message, if_neg htid, hget, hc,
        if_pos]
  · intro htid hcond
    simp only [pause_thread_for_manual_message, if_neg htid]
    cases hget : get_contact store tid now with
    | some c =>
        rw [hget] at hcond
        simp only [] at hcond ⊢
        have hc : ¬ (c.allow_bot = false) := by
          rw [hcond]
          simp
        rw [if_neg hc]
        apply upsert_pause_written
        left
        simp only [get_contact] at hget
        cases hlook : lookupCandidates store (candidateContactKeys tid) with
        | none =>
            rw [hlook] at hget
            simp only [] at hget
            exact Option.noConfusion hget
        | some kc =>
            exact ⟨kc.1, kc.2, rfl⟩
    | none =>
        rw [hget] at hcond
        simp only [] at hcond
        apply upsert_pause_written
        right
        exact hcond

/-- The debounce key and pause target id computed by the `from_me` branch
of `process_whatsapp_message`. -/
def manual_outbound_target (p : Payload) : String × String :=
  let chat_id_raw := pyStrip (if p.fromField = "" then p.author else p.fromField)
  let wa_id := normalize_wa_id chat_id_raw
  let to_raw := pyStrip p.toField
  let chat_id := normalize_chat_id (if chat_id_raw = "" then wa_id else chat_id_raw)
  let target_raw :=
    if to_raw ≠ "" then to_raw
    else if chat_id_raw ≠ "" then chat_id_raw else wa_id
  let target_wa_id := normalize_wa_id target_raw
  let target_chat_id :=
    normalize_chat_id (if target_raw = "" then chat_id else target_raw)
  (debounce_key target_wa_id target_chat_id,
   if target_wa_id = "" then target_chat_id else target_wa_id)

theorem bufGet_cancel (bufs : List (String × DebounceBuffer)) (key : String)
    (hkey : key ≠ "") :
    bufGet (cancel_debounce_buffer bufs key) key = none := by
  simp only [cancel_debounce_buffer, if_neg hkey, bufGet,
    Option.map_eq_none', List.find?_eq_none]
  intro p hp
  have := List.mem_filter.mp hp
  simpa using this.2

set_option maxHeartbeats 2000000 in
/-- C3: a `from_self=true` event that reaches the manual-outbound branch
(valid, not stale, not a duplicate, not an API-originated self message, not
whitelist-blocked) cancels any pending debounce buffer for the target
conversation and routes the target id through
`pause_thread_for_manual_message`; the pause sets the target contact to
`allow_bot=false` with source `"manual_outbound"` (and category `"other"`),
and it is idempotent: when the contact's `allow_bot` is already `false`, no
write to the contact store occurs. -/
theorem from_self_pauses_and_cancels (body : WebhookBody) (p : Payload)
    (st : SysState) (policy : Option (Option Contact × Bool)) (now : Int)
    (iso_now : String) (dsecs : Int)
    (hp : body.payload = some p)
    (hvalid : is_valid_whatsapp_message body = true)
    (hfromme : p.fromMe = true)
    (hdup : (dedupCheck now (pyStrip p.id) st.dedup).1 = false) :
    process_whatsapp_message body st false false policy now iso_now dsecs
      = ({ st with
            dedup := (dedupCheck now (pyStrip p.id) st.dedup).2
            buffers := cancel_debounce_buffer st.buffers
              (manual_outbound_target p).1
            contacts := pause_thread_for_manual_message st.contacts
              (manual_outbound_target p).2 none iso_now },
          .manualOutbound (manual_outbound_target p).1
            (manual_outbound_target p).2)
    ∧ ((manual_outbound_target p).1 ≠ "" →
        bufGet (cancel_debounce_buffer st.buffers
            (manual_outbound_target p).1) (manual_outbound_target p).1
          = none)
    ∧ (∀ store tid,
        (∃ c, get_contact store tid iso_now = some c ∧ c.allow_bot = false) →
        pause_thread_for_manual_message store tid none iso_now = store)
    ∧ (∀ store tid, tid ≠ "" →
        (match get_contact store tid iso_now with
         | some c => c.allow_bot = true
         | none => normalize_phone tid ≠ "") →
        ∃ c', get_contact
            (pause_thread_for_manual_message store tid none iso_now) tid
            iso_now = some c'
          ∧ c'.allow_bot = false ∧ c'.source = "manual_outbound"
          ∧ c'.category = "other") := by
  have hnapi : ¬ (p.fromMe = true ∧ pyLower p.source = "api") := by
    rintro ⟨hfm, hapi⟩
    simp only [is_valid_whatsapp_message, hp] at hvalid
    by_cases hev : body.event ≠ "" ∧ body.event ≠ "message"
        ∧ body.event ≠ "message.any"
    · rw [if_pos hev] at hvalid
      exact absurd hvalid (by simp)
    · rw [if_neg hev] at hvalid
      rw [if_pos ⟨hfm, hapi⟩] at hvalid
      exact absurd hvalid (by simp)
  refine ⟨?_, fun hk => bufGet_cancel st.buffers _ hk,
    fun store tid => (pause_thread_spec store tid iso_now).1,
    fun store tid => (pause_thread_spec store tid iso_now).2⟩
  have hnotvalidfalse : ¬ (is_valid_whatsapp_message body = false) := by
    rw [hvalid]
    simp
  simp only [process_whatsapp_message, hp, if_neg hnotvalidfalse]
  rw [if_neg (by simp : ¬ (false = true))]
  rw [if_neg (by rw [hdup]; simp : ¬ ((dedupCheck now (pyStrip p.id)
    st.dedup).1 = true))]
  rw [if_neg hnapi]
  rw [if_neg (by simp : ¬ (false = true))]
  rw [if_pos hfromme]
  simp only [manual_outbound_target]

/-- An API-originated self message (the bot's own outbound reply):
`fromMe = true` with `source = "api"`. -/
def apiSelfPayload : Payload :=
  { fromField := "628me@c.us", author := "", body := "ok", id := "MID0",
    hasMedia := false, fromMe := true, source := "api",
    toField := "62811@c.us", lid := "" }

/-- C3 counterexample: not **every** `from_self=true` event pauses the
target contact — a `from_self=true` event with `source = "api"` (the bot's
own API-sent reply) is rejected outright: no debounce cancellation and no
contact write happen (the contact store stays empty, so the target has no
`allow_bot=false` record). -/
theorem from_self_api_not_paused_cex :
    apiSelfPayload.fromMe = true
    ∧ process_whatsapp_message ⟨"message", some apiSelfPayload⟩ ⟨[], [], []⟩
        false false none 1000 "t1" 60
      = (⟨[], [], []⟩, .rejectedInvalid)
    ∧ get_contact ((process_whatsapp_message ⟨"message", some apiSelfPayload⟩
        ⟨[], [], []⟩ false false none 1000 "t1" 60).1.contacts)
        (manual_outbound_target apiSelfPayload).2 "t1" = none :=
  ⟨rfl, by decide, by decide⟩

/-- A sample manual outbound event: the monitored account messages
`62811@c.us` by hand from the phone (`source = "app"`). -/
def moPayload : Payload :=
  { fromField := "628me@c.us", author := "", body := "ok", id := "MID1",
    hasMedia := false, fromMe := true, source := "app",
    toField := "62811@c.us", lid := "" }

def moBody : WebhookBody := ⟨"message", some moPayload⟩

/-- Concrete witness for `from_self_pauses_and_cancels`: the sample manual
outbound event against empty caches and stores. -/
theorem from_self_pauses_and_cancels_witness :
    (moBody.payload = some moPayload
      ∧ is_valid_whatsapp_message moBody = true
      ∧ moPayload.fromMe = true
      ∧ (dedupCheck 1000 (pyStrip moPayload.id)
          (⟨[], [], []⟩ : SysState).dedup).1 = false)
    ∧ process_whatsapp_message moBody ⟨[], [], []⟩ false false none 1000
        "t1" 60
      = ({ dedup := (dedupCheck 1000 (pyStrip moPayload.id) []).2
           buffers := cancel_debounce_buffer [] (manual_outbound_target
              moPayload).1
           contacts := pause_thread_for_manual_message []
              (manual_outbound_target moPayload).2 none "t1" },
        .manualOutbound (manual_outbound_target moPayload).1
          (manual_outbound_target moPayload).2) :=
  ⟨⟨rfl, by decide, rfl, by decide⟩,
   (from_self_pauses_and_cancels moBody moPayload ⟨[], [], []⟩ none 1000
      "t1" 60 rfl (by decide) rfl (by decide)).1⟩

end WaBot
